import Mathlib

/-!
Verification of the deprovisioning controller of karpenter-core.

The development shallowly embeds the Go sources:
  * `src/pkg/controllers/deprovisioning/controller.go`
    (`Reconcile`, `executeCommand`, `launchReplacementNodes`,
     `setNodesUnschedulable`, `NewController`);
  * `src/unnamed/part_001` (`SingleNodeConsolidation.ComputeCommand`);
  * `src/pkg/controllers/machine/liveness.go` (`Liveness.Reconcile`);
  * the event recorder of `pkg/events` (modelled from the spec, since only
    its test file is present in the sources).

Stateful code is embedded as explicit state passing over a `World` that
carries the API-server node records, the cluster cache flags and an ordered
trace of the observable actions (patches, launches, event publishes,
deletions).  Calls into collaborators whose outcome is decided outside the
embedded code (LaunchMachines, the readiness poll against a live API server)
are parameters of an `Env` record.
-/

namespace KC

/-- A node as the controller sees it through the kube client: its name, whether
it carries the `v1alpha5.LabelNodeInitialized` label, its
`Spec.Unschedulable` flag, and whether `DeletionTimestamp.IsZero()` holds. -/
structure NodeObj where
  name : String
  initialized : Bool
  unschedulable : Bool
  deletionTimestampZero : Bool
deriving DecidableEq

/-- Observable actions of one reconcile tick, in program order. -/
inductive Act where
  /-- `recorder.Publish` of an event with the given reason for a node. -/
  | publish (reason : String) (node : String)
  /-- a successful `kubeClient.Patch` of `Spec.Unschedulable`. -/
  | patchUnschedulable (node : String) (value : Bool)
  /-- the call to `provisioner.LaunchMachines`. -/
  | launchCall
  /-- the readiness poll observed the `initialized` label on the node. -/
  | observeInitialized (node : String)
  /-- `kubeClient.Delete` issued for the node. -/
  | deleteCall (node : String)
  /-- `waitForDeletion` ran for the node. -/
  | waitDeletion (node : String)
deriving DecidableEq

/-- The state threaded through a tick: the API server's nodes, the cluster
cache's `markedForDeletion` set and `consolidated` flag, and the trace. -/
structure World where
  nodes : List NodeObj
  markedForDeletion : List String
  consolidated : Bool
  trace : List Act
deriving DecidableEq

/-- `kubeClient.Get` of a node by name (first record with that name). -/
def getNode : List NodeObj → String → Option NodeObj
  | [], _ => none
  | n :: rest, nm => if n.name = nm then some n else getNode rest nm

/-- `kubeClient.Patch` of `Spec.Unschedulable` on the named node (always
succeeds when the node exists; the trace records the patch). -/
def patchNodeUnschedulable (w : World) (nm : String) (v : Bool) : World :=
  { w with
    nodes := w.nodes.map (fun m => if m.name = nm then { m with unschedulable := v } else m),
    trace := w.trace ++ [Act.patchUnschedulable nm v] }

/-- `Controller.setNodesUnschedulable` (controller.go:258-283).  For each name:
get the node (a failed get joins the multi-error and the zero-valued node
drives the rest of the loop body, where no patch can succeed); skip an
un-cordon of a node already being deleted; skip a node already in the desired
state; otherwise patch.  Returns the world and whether the multi-error is
non-nil. -/
def setNodesUnschedulable (w : World) (isUnschedulable : Bool) : List String → World × Bool
  | [] => (w, false)
  | nodeName :: rest =>
    match getNode w.nodes nodeName with
    | none =>
      -- Get failed: multiErr is appended to; the zero node never patches
      ((setNodesUnschedulable w isUnschedulable rest).1, true)
    | some node =>
      if ¬isUnschedulable ∧ ¬node.deletionTimestampZero then
        -- node is being deleted already, so no need to un-cordon
        setNodesUnschedulable w isUnschedulable rest
      else if node.unschedulable = isUnschedulable then
        -- already matches the state we want to be in
        setNodesUnschedulable w isUnschedulable rest
      else
        setNodesUnschedulable (patchNodeUnschedulable w nodeName isUnschedulable) isUnschedulable rest

/-- The net effect of the loop body of `setNodesUnschedulable` on one node. -/
def applyUnsched (v : Bool) (n : NodeObj) : NodeObj :=
  if ¬v ∧ ¬n.deletionTimestampZero then n
  else if n.unschedulable = v then n
  else { n with unschedulable := v }

/-- A machine request handed to `provisioner.LaunchMachines`; its contents are
opaque to the controller code embedded here. -/
structure MachineSpec where
  id : Nat
deriving DecidableEq

/-- The `action` values of a deprovisioning `Command` (types.go constants used
by controller.go and the strategies). -/
inductive CommandAction where
  | actionDoNothing
  | actionRetry
  | actionDelete
  | actionReplace
deriving DecidableEq

/-- A deprovisioning `Command`: the fields of the Go struct that
`executeCommand` and `Reconcile` consume. -/
structure Command where
  action : CommandAction
  nodesToRemove : List NodeObj
  replacementNodes : List MachineSpec
deriving DecidableEq

/-- Outcomes decided outside the embedded controller code: the result of
`provisioner.LaunchMachines` (`none` models a launch error) and, per launched
node name, whether the readiness retry loop eventually observes the
`initialized` label within its envelope. -/
structure Env where
  launchResult : Option (List String)
  readinessOk : String → Bool

/-- The errors `launchReplacementNodes` can return, one per `return` site. -/
inductive ExecError where
  | cordonFailed
  | launchFailed
  | countMismatch
  | readinessTimeout
deriving DecidableEq

/-- One worker of the readiness wait (controller.go:226-248): the retry poll is
collapsed to its outcome `env.readinessOk`; on success the trace records the
`LaunchingNode` publish and the observation of the `initialized` label, on a
timeout it records the `LaunchingNode` and `WaitingOnReadiness` publishes. -/
def waitForReadiness (env : Env) (w : World) (nodeName : String) : World × Bool :=
  if env.readinessOk nodeName then
    ({ w with trace := w.trace ++
        [Act.publish "LaunchingNode" nodeName, Act.observeInitialized nodeName] }, true)
  else
    ({ w with trace := w.trace ++
        [Act.publish "LaunchingNode" nodeName, Act.publish "WaitingOnReadiness" nodeName] }, false)

/-- The `workqueue.ParallelizeUntil` fan-out over the launched node names,
linearized in index order; the Bool is whether `multierr.Combine(errs...)`
is non-nil. -/
def waitForReadinessAll (env : Env) (w : World) : List String → World × Bool
  | [] => (w, false)
  | n :: rest =>
    let res := waitForReadiness env w n
    let resAll := waitForReadinessAll env res.1 rest
    (resAll.1, (!res.2) || resAll.2)

/-- The trace appended by the readiness wait over a list of node names. -/
def readyDelta (env : Env) : List String → List Act
  | [] => []
  | n :: rest =>
    (if env.readinessOk n then
      [Act.publish "LaunchingNode" n, Act.observeInitialized n]
     else
      [Act.publish "LaunchingNode" n, Act.publish "WaitingOnReadiness" n]) ++ readyDelta env rest

/-- `Controller.launchReplacementNodes` (controller.go:201-256): cordon the old
nodes, launch the replacements, check the returned name count, mark the old
nodes for deletion, wait for every replacement to become initialized; on a
readiness timeout un-mark and un-cordon. -/
def launchReplacementNodes (env : Env) (w : World) (action : Command) : World × Option ExecError :=
  let nodeNamesToRemove := action.nodesToRemove.map (fun n => n.name)
  let cordonRes := setNodesUnschedulable w true nodeNamesToRemove
  if cordonRes.2 then (cordonRes.1, some ExecError.cordonFailed)
  else
    let w2 := { cordonRes.1 with trace := cordonRes.1.trace ++ [Act.launchCall] }
    match env.launchResult with
    | none =>
      -- uncordon the nodes as the launch may fail (e.g. ICE or incompatible AMI)
      ((setNodesUnschedulable w2 false nodeNamesToRemove).1, some ExecError.launchFailed)
    | some nodeNames =>
      if nodeNames.length = action.replacementNodes.length then
        -- the new nodes exist at the API server: mark the old nodes for deletion
        let w3 := { w2 with markedForDeletion := w2.markedForDeletion ++ nodeNamesToRemove }
        let readyRes := waitForReadinessAll env w3 nodeNames
        if readyRes.2 then
          -- nodes never became ready: un-mark, un-cordon and report the error
          let w5 := { readyRes.1 with
            markedForDeletion :=
              readyRes.1.markedForDeletion.filter (fun nm => !(decide (nm ∈ nodeNamesToRemove))) }
          ((setNodesUnschedulable w5 false nodeNamesToRemove).1, some ExecError.readinessTimeout)
        else (readyRes.1, none)
      else
        -- shouldn't ever occur since a partially failed LaunchMachines errors
        (w2, some ExecError.countMismatch)

/-- The loop of `executeCommand` (controller.go:158-165): publish
`TerminatingNode` and issue the Delete for each old node in order. -/
def deleteOldNodes (w : World) : List NodeObj → World
  | [] => w
  | oldNode :: rest =>
    deleteOldNodes
      { w with
        nodes := w.nodes.filter (fun m => !(m.name = oldNode.name)),
        trace := w.trace ++ [Act.publish "TerminatingNode" oldNode.name, Act.deleteCall oldNode.name] }
      rest

/-- The loop of `executeCommand` (controller.go:169-171): wait for each old
node to disappear from the API server (timeouts are only logged). -/
def waitForDeletionAll (w : World) : List NodeObj → World
  | [] => w
  | oldnode :: rest =>
    waitForDeletionAll { w with trace := w.trace ++ [Act.waitDeletion oldnode.name] } rest

/-- `Controller.executeCommand` (controller.go:146-173). -/
def executeCommand (env : Env) (w : World) (command : Command) : World × Option ExecError :=
  if command.action = CommandAction.actionReplace then
    let launchRes := launchReplacementNodes env w command
    match launchRes.2 with
    | some e => (launchRes.1, some e)
    | none =>
      (waitForDeletionAll (deleteOldNodes launchRes.1 command.nodesToRemove)
        command.nodesToRemove, none)
  else
    (waitForDeletionAll (deleteOldNodes w command.nodesToRemove) command.nodesToRemove, none)

/-- The trace appended by the terminate/delete loop of `executeCommand`. -/
def termDelta : List NodeObj → List Act
  | [] => []
  | n :: rest =>
    Act.publish "TerminatingNode" n.name :: Act.deleteCall n.name :: termDelta rest

/-- The node records left after the delete loop. -/
def removeNodes : List NodeObj → List NodeObj → List NodeObj
  | ns, [] => ns
  | ns, n :: rest => removeNodes (ns.filter (fun m => !(m.name = n.name))) rest

/-- The trace appended by the deletion-wait loop of `executeCommand`. -/
def waitDelta : List NodeObj → List Act
  | [] => []
  | n :: rest => Act.waitDeletion n.name :: waitDelta rest

/-- Every replacement node name is observed with the `initialized` label at a
trace position strictly before every `kubeClient.Delete` call. -/
def observedBeforeAllDeletes (tr : List Act) (r : String) : Prop :=
  ∀ (i : Nat) (d : String), tr[i]? = some (Act.deleteCall d) →
    ∃ j : Nat, j < i ∧ tr[j]? = some (Act.observeInitialized r)

/-- Concrete data for the C1 witness. -/
def envW1 : Env := { launchResult := some ["repl1"], readinessOk := fun _ => true }

def oldNodeW1 : NodeObj :=
  { name := "old1", initialized := false, unschedulable := false, deletionTimestampZero := true }

def worldW1 : World :=
  { nodes := [oldNodeW1], markedForDeletion := [], consolidated := false, trace := [] }

def cmdW1 : Command :=
  { action := CommandAction.actionReplace, nodesToRemove := [oldNodeW1],
    replacementNodes := [{ id := 1 }] }

/-- Concrete data refuting C2 as stated: the old node already has a non-zero
deletion timestamp, so the rollback un-cordon skips it. -/
def envC2 : Env := { launchResult := some ["replc2"], readinessOk := fun _ => false }

def nodeC2 : NodeObj :=
  { name := "a2", initialized := false, unschedulable := true, deletionTimestampZero := false }

def worldC2 : World :=
  { nodes := [nodeC2], markedForDeletion := [], consolidated := false, trace := [] }

def cmdC2 : Command :=
  { action := CommandAction.actionReplace, nodesToRemove := [nodeC2],
    replacementNodes := [{ id := 2 }] }

/-- Concrete data for the C2 witness. -/
def envW2 : Env := { launchResult := some ["replw2"], readinessOk := fun _ => false }

def nodeW2 : NodeObj :=
  { name := "a2w", initialized := false, unschedulable := false, deletionTimestampZero := true }

def worldW2 : World :=
  { nodes := [nodeW2], markedForDeletion := [], consolidated := false, trace := [] }

def cmdW2 : Command :=
  { action := CommandAction.actionReplace, nodesToRemove := [nodeW2],
    replacementNodes := [{ id := 2 }] }

/-- Concrete data refuting C6 as stated: the old node is already being deleted
(non-zero deletion timestamp), so after the launch failure the un-cordon skips
it and it stays cordoned. -/
def envC6 : Env := { launchResult := none, readinessOk := fun _ => true }

def nodeC6 : NodeObj :=
  { name := "b6", initialized := false, unschedulable := false, deletionTimestampZero := false }

def worldC6 : World :=
  { nodes := [nodeC6], markedForDeletion := [], consolidated := false, trace := [] }

def cmdC6 : Command :=
  { action := CommandAction.actionReplace, nodesToRemove := [nodeC6],
    replacementNodes := [{ id := 6 }] }

/-- Concrete data for the C6 witness. -/
def envW6 : Env := { launchResult := none, readinessOk := fun _ => true }

def nodeW6 : NodeObj :=
  { name := "b6w", initialized := false, unschedulable := false, deletionTimestampZero := true }

def worldW6 : World :=
  { nodes := [nodeW6], markedForDeletion := [], consolidated := false, trace := [] }

def cmdW6 : Command :=
  { action := CommandAction.actionReplace, nodesToRemove := [nodeW6],
    replacementNodes := [{ id := 6 }] }

/-- Concrete data for the C9 witness. -/
def envW9 : Env := { launchResult := some ["x9", "y9"], readinessOk := fun _ => true }

def nodeW9 : NodeObj :=
  { name := "c9", initialized := false, unschedulable := false, deletionTimestampZero := true }

def worldW9 : World :=
  { nodes := [nodeW9], markedForDeletion := [], consolidated := false, trace := [] }

def cmdW9 : Command :=
  { action := CommandAction.actionReplace, nodesToRemove := [nodeW9],
    replacementNodes := [{ id := 9 }] }

/-- The claimed C5 ordering: every cordon patch or launch call is preceded by
some `TerminatingNode` publish. -/
def terminatingNodeEmittedFirst (tr : List Act) : Prop :=
  ∀ (i : Nat) (a : Act), tr[i]? = some a →
    ((∃ nm b, a = Act.patchUnschedulable nm b) ∨ a = Act.launchCall) →
    ∃ j : Nat, j < i ∧ ∃ m, tr[j]? = some (Act.publish "TerminatingNode" m)

/-- Concrete data refuting C5 as stated. -/
def envC5 : Env := { launchResult := some ["r5"], readinessOk := fun _ => true }

def nodeC5 : NodeObj :=
  { name := "old5", initialized := false, unschedulable := false, deletionTimestampZero := true }

def worldC5 : World :=
  { nodes := [nodeC5], markedForDeletion := [], consolidated := false, trace := [] }

def cmdC5 : Command :=
  { action := CommandAction.actionReplace, nodesToRemove := [nodeC5],
    replacementNodes := [{ id := 5 }] }

/-- Concrete data for the C5 witness. -/
def envW5 : Env := { launchResult := some ["r5w"], readinessOk := fun _ => true }

def nodeW5 : NodeObj :=
  { name := "old5w", initialized := false, unschedulable := false, deletionTimestampZero := true }

def worldW5 : World :=
  { nodes := [nodeW5], markedForDeletion := [], consolidated := false, trace := [] }

def cmdW5 : Command :=
  { action := CommandAction.actionReplace, nodesToRemove := [nodeW5],
    replacementNodes := [{ id := 55 }] }

/-- Concrete data for the delete-only part of the C5 witness. -/
def nodeW5d : NodeObj :=
  { name := "old5d", initialized := false, unschedulable := false, deletionTimestampZero := true }

def worldW5d : World :=
  { nodes := [nodeW5d], markedForDeletion := [], consolidated := false, trace := [] }

def cmdW5d : Command :=
  { action := CommandAction.actionDelete, nodesToRemove := [nodeW5d], replacementNodes := [] }

/-- pollingPeriod that we inspect cluster to look for opportunities to
deprovision (controller.go:59, `10 * time.Second`), in seconds. -/
def pollingPeriod : Nat := 10

/-- A deprovisioner as `Reconcile` consumes it: its name and this tick's
outcomes of `candidateNodes` (an oracle for the helper that is not under
`src/`) and `ComputeCommand`.  Candidates are abstract ids. -/
structure Deprovisioner where
  name : String
  candidatesResult : Except Unit (List Nat)
  computeResult : Except Unit Command

/-- The value of `reconcile.Result` as the controller produces it. -/
inductive ReconcileResult where
  | err
  | requeue
  | requeueAfter (seconds : Nat)
deriving DecidableEq

/-- `Controller.Reconcile` (controller.go:110-144): walk the deprovisioners in
order; skip on no candidates or `doNothing`; return a requeue on `retry`;
execute the first actionable command and requeue; if all did nothing, set the
consolidated flag and requeue after `pollingPeriod`.  The third component
lists the executed (strategy name, command) pairs of the tick. -/
def reconcileLoop (env : Env) (w : World) :
    List Deprovisioner → World × ReconcileResult × List (String × Command)
  | [] => ({ w with consolidated := true }, ReconcileResult.requeueAfter pollingPeriod, [])
  | d :: rest =>
    match d.candidatesResult with
    | Except.error _ => (w, ReconcileResult.err, [])
    | Except.ok candidates =>
      if candidates.isEmpty then reconcileLoop env w rest
      else
        match d.computeResult with
        | Except.error _ => (w, ReconcileResult.err, [])
        | Except.ok cmd =>
          if cmd.action = CommandAction.actionDoNothing then reconcileLoop env w rest
          else if cmd.action = CommandAction.actionRetry then (w, ReconcileResult.requeue, [])
          else
            let res := executeCommand env w cmd
            if res.2.isSome then (res.1, ReconcileResult.err, [(d.name, cmd)])
            else (res.1, ReconcileResult.requeue, [(d.name, cmd)])

/-- The names, in order, of the deprovisioners installed by `NewController`
(controller.go:85-98). -/
def newControllerDeprovisionerNames : List String :=
  ["Expiration", "Drift", "Emptiness", "EmptyNodeConsolidation",
   "MultiNodeConsolidation", "SingleNodeConsolidation"]

/-- The deprovisioner list of `NewController`, with this tick's oracle
behaviours attached to the six strategies in their fixed order. -/
def newControllerDeprovisioners
    (bs : List (Except Unit (List Nat) × Except Unit Command)) : List Deprovisioner :=
  List.zipWith (fun nm b => { name := nm, candidatesResult := b.1, computeResult := b.2 })
    newControllerDeprovisionerNames bs

/-- A deprovisioner lets the tick move on (no candidates, or a `doNothing`
command). -/
def skipsTurn (d : Deprovisioner) : Bool :=
  match d.candidatesResult with
  | Except.error _ => false
  | Except.ok cs =>
    cs.isEmpty ||
      (match d.computeResult with
       | Except.ok cmd => decide (cmd.action = CommandAction.actionDoNothing)
       | Except.error _ => false)

/-- Concrete data for the C3 witness: Expiration has no candidates, Drift
executes a delete command, the remaining strategies are never consulted. -/
def envC3 : Env := { launchResult := none, readinessOk := fun _ => true }

def worldC3 : World :=
  { nodes := [], markedForDeletion := [], consolidated := false, trace := [] }

def cmdC3 : Command :=
  { action := CommandAction.actionDelete, nodesToRemove := [], replacementNodes := [] }

def cmdNothing : Command :=
  { action := CommandAction.actionDoNothing, nodesToRemove := [], replacementNodes := [] }

def bsC3 : List (Except Unit (List Nat) × Except Unit Command) :=
  [(Except.ok [], Except.ok cmdNothing),
   (Except.ok [1], Except.ok cmdC3),
   (Except.ok [], Except.ok cmdNothing),
   (Except.ok [], Except.ok cmdNothing),
   (Except.ok [], Except.ok cmdNothing),
   (Except.ok [], Except.ok cmdNothing)]

/-- Concrete data for the C7 witness. -/
def envC7 : Env := { launchResult := none, readinessOk := fun _ => true }

def worldC7 : World :=
  { nodes := [], markedForDeletion := ["m7"], consolidated := false, trace := [] }

def bsC7 : List (Except Unit (List Nat) × Except Unit Command) :=
  [(Except.ok [], Except.ok cmdNothing),
   (Except.ok [2], Except.ok cmdNothing),
   (Except.ok [], Except.ok cmdNothing),
   (Except.ok [3], Except.ok cmdNothing),
   (Except.ok [], Except.ok cmdNothing),
   (Except.ok [], Except.ok cmdNothing)]

/-- The collaborators of `SingleNodeConsolidation.ComputeCommand`
(src/unnamed/part_001:43-85): the cluster's consolidated flag, the outcome of
`sortAndFilterCandidates` (candidates as abstract ids), the per-candidate
`computeConsolidation` option, and the validator `v.IsValid`. -/
structure SNCDeps where
  consolidated : Bool
  sortAndFilterCandidates : Except Unit (List Nat)
  computeConsolidation : Nat → Except Unit Command
  isValid : Command → Except Unit Bool

/-- The `Command{action: actionRetry}` returned when validation failed. -/
def retryCommand : Command :=
  { action := CommandAction.actionRetry, nodesToRemove := [], replacementNodes := [] }

/-- The `Command{action: actionDoNothing}` returned otherwise. -/
def doNothingCommand : Command :=
  { action := CommandAction.actionDoNothing, nodesToRemove := [], replacementNodes := [] }

/-- The candidate loop of `SingleNodeConsolidation.ComputeCommand` with its
`failedValidation` flag: compute errors, `doNothing`/`retry` options and
validation errors are logged and skipped; a failed validation sets the flag; a
validated replace/delete command is returned at once. -/
def sncLoop (deps : SNCDeps) : List Nat → Bool → Command
  | [], failedValidation =>
    if failedValidation then retryCommand else doNothingCommand
  | node :: rest, failedValidation =>
    match deps.computeConsolidation node with
    | Except.error _ => sncLoop deps rest failedValidation
    | Except.ok cmd =>
      if cmd.action = CommandAction.actionDoNothing ∨ cmd.action = CommandAction.actionRetry then
        sncLoop deps rest failedValidation
      else
        match deps.isValid cmd with
        | Except.error _ => sncLoop deps rest failedValidation
        | Except.ok false => sncLoop deps rest true
        | Except.ok true =>
          if cmd.action = CommandAction.actionReplace ∨
              cmd.action = CommandAction.actionDelete then cmd
          else sncLoop deps rest failedValidation

/-- `SingleNodeConsolidation.ComputeCommand` (src/unnamed/part_001:43-85). -/
def singleNodeComputeCommand (deps : SNCDeps) : Except Unit Command :=
  if deps.consolidated then Except.ok doNothingCommand
  else
    match deps.sortAndFilterCandidates with
    | Except.error e => Except.error e
    | Except.ok candidates => Except.ok (sncLoop deps candidates false)

/-- A candidate's computed command counts as actionable when its action is
neither `doNothing` nor `retry`. -/
def actionableCmd (cmd : Command) : Prop :=
  ¬(cmd.action = CommandAction.actionDoNothing ∨ cmd.action = CommandAction.actionRetry)

/-- Concrete data refuting C4 as stated: candidate 1 computes a replace that
fails validation, but candidate 2 computes a delete that validates, so the
tick returns the delete command, not retry. -/
def cmdR1 : Command :=
  { action := CommandAction.actionReplace, nodesToRemove := [], replacementNodes := [{ id := 41 }] }

def cmdD2 : Command :=
  { action := CommandAction.actionDelete, nodesToRemove := [], replacementNodes := [] }

def depsC4 : SNCDeps :=
  { consolidated := false,
    sortAndFilterCandidates := Except.ok [1, 2],
    computeConsolidation := fun n => if n = 1 then Except.ok cmdR1 else Except.ok cmdD2,
    isValid := fun c => if c = cmdR1 then Except.ok false else Except.ok true }

/-- Concrete data for the C4 witness. -/
def cmdW4 : Command :=
  { action := CommandAction.actionReplace, nodesToRemove := [], replacementNodes := [{ id := 44 }] }

def depsW4 : SNCDeps :=
  { consolidated := false,
    sortAndFilterCandidates := Except.ok [7],
    computeConsolidation := fun _ => Except.ok cmdW4,
    isValid := fun _ => Except.ok false }

def envW4 : Env := { launchResult := none, readinessOk := fun _ => true }

def worldW4 : World :=
  { nodes := [], markedForDeletion := [], consolidated := false, trace := [] }

/-- A machine as `Liveness.Reconcile` sees it: whether the `MachineRegistered`
status condition is true, and its creation timestamp in seconds (0 encodes
the zero time, `CreationTimestamp.IsZero()`). -/
structure Machine where
  registered : Bool
  creationTimestamp : Nat
deriving DecidableEq

/-- The `TTLAfterNotRegistered` setting, in seconds (`nil` when unset). -/
structure MachineSettings where
  ttlAfterNotRegistered : Option Nat
deriving DecidableEq

/-- The `reconcile.Result` values `Liveness.Reconcile` can produce. -/
inductive LivenessResult where
  | empty
  | requeueAfter (seconds : Nat)
deriving DecidableEq

/-- `Liveness.Reconcile` (liveness.go:33-45): with the TTL unset do nothing;
for an unregistered machine whose non-zero creation timestamp plus the TTL is
before now, delete it (the Bool); otherwise requeue after the TTL; a
registered machine is left alone. -/
def livenessReconcile (settings : MachineSettings) (now : Nat) (machine : Machine) :
    LivenessResult × Bool :=
  match settings.ttlAfterNotRegistered with
  | none => (LivenessResult.empty, false)
  | some ttl =>
    if ¬machine.registered then
      if machine.creationTimestamp ≠ 0 ∧ machine.creationTimestamp + ttl < now then
        (LivenessResult.empty, true)
      else
        (LivenessResult.requeueAfter ttl, false)
    else (LivenessResult.empty, false)

/-- Concrete data for the C10 witness. -/
def settingsW10 : MachineSettings := { ttlAfterNotRegistered := some 5 }

def machineW10 : Machine := { registered := false, creationTimestamp := 100 }

/-- Modelled from the spec: an event of the recorder of `pkg/events`, whose
implementation is not under `src/` (only its test file is).  Per spec §4.4 an
event has a stable `reason` string and a per-entity identity (the involved
object's UID). -/
structure Event where
  reason : String
  involvedUID : Nat
deriving DecidableEq

/-- Modelled from the spec: the dedupe window ("identical (reason,
entity-UID) within a short window coalesce to one"); its concrete length is
immaterial here, every scenario stays within one second. -/
def dedupeWindowSeconds : Nat := 120

/-- Modelled from the spec: the per-reason-class token bucket
(`tokensPerSec`, `burst`); only `NominatePod` is rate-limited (5 tokens/sec,
burst 10, as in the test's `flowcontrol.NewTokenBucketRateLimiter(5, 10)`). -/
def rateLimitFor (reason : String) : Option (Nat × Nat) :=
  if reason = "NominatePod" then some (5, 10) else none

/-- Modelled from the spec: the recorder's state — dedupe cache entries
(reason, uid, time), token buckets (reason, tokens, last-publish time) and the
downstream emissions in order. -/
structure RecorderState where
  dedupeSeen : List (String × Nat × Nat)
  buckets : List (String × Nat × Nat)
  emitted : List Event
deriving DecidableEq

def initRecorder : RecorderState := { dedupeSeen := [], buckets := [], emitted := [] }

/-- Whether a publish at time `t` is a duplicate within the dedupe window. -/
def dedupeHit (st : RecorderState) (t : Nat) (ev : Event) : Bool :=
  st.dedupeSeen.any (fun e =>
    decide (e.1 = ev.reason) && decide (e.2.1 = ev.involvedUID) &&
      decide (t - e.2.2 < dedupeWindowSeconds))

/-- The bucket (tokens, last time) for a reason, when one exists. -/
def bucketFor (st : RecorderState) (reason : String) : Option (Nat × Nat) :=
  (st.buckets.find? (fun b => decide (b.1 = reason))).map (fun b => b.2)

/-- Modelled from the spec: `Recorder.Publish` — drop duplicates within the
window; otherwise record the dedupe entry and pass the event through the
reason's token bucket (start full at `burst`; refill `rate` per elapsed
second capped at `burst`; emit and spend a token when one is available, else
drop); reasons without a bucket pass through. -/
def publishEvent (st : RecorderState) (t : Nat) (ev : Event) : RecorderState :=
  if dedupeHit st t ev then st
  else
    let st1 : RecorderState :=
      { st with dedupeSeen := (ev.reason, ev.involvedUID, t) :: st.dedupeSeen }
    match rateLimitFor ev.reason with
    | none => { st1 with emitted := st1.emitted ++ [ev] }
    | some rb =>
      let prev := (bucketFor st ev.reason).getD (rb.2, t)
      let refilled := min rb.2 (prev.1 + rb.1 * (t - prev.2))
      let others := st.buckets.filter (fun b => !(decide (b.1 = ev.reason)))
      if 1 ≤ refilled then
        { st1 with buckets := (ev.reason, refilled - 1, t) :: others,
                   emitted := st1.emitted ++ [ev] }
      else
        { st1 with buckets := (ev.reason, refilled, t) :: others }

def publishAll (st : RecorderState) (l : List (Nat × Event)) : RecorderState :=
  l.foldl (fun s te => publishEvent s te.1 te.2) st

def countReason (l : List Event) (reason : String) : Nat :=
  l.countP (fun e => decide (e.reason = reason))

def emitCount (st : RecorderState) (reason : String) : Nat :=
  countReason st.emitted reason

/-- The `NominatePod` bucket's token count (full burst when absent). -/
def nominateTokens (st : RecorderState) : Nat :=
  ((bucketFor st "NominatePod").getD (10, 0)).1

/-- 100 `NominatePod` publishes for distinct pods within one second. -/
def nominateBurstScenario : List (Nat × Event) :=
  (List.range 100).map (fun i => (0, { reason := "NominatePod", involvedUID := i }))

/-- Three rounds of 5 `NominatePod` publishes, one second apart. -/
def nominateSmoothScenario : List (Nat × Event) :=
  ((List.range 5).map (fun i => (0, { reason := "NominatePod", involvedUID := 100 + i })))
    ++ ((List.range 5).map (fun i => (1, { reason := "NominatePod", involvedUID := 200 + i })))
    ++ ((List.range 5).map (fun i => (2, { reason := "NominatePod", involvedUID := 300 + i })))

/-- 100 `EvictPod` publishes for the same pod within one second. -/
def evictDupScenario : List (Nat × Event) :=
  (List.range 100).map (fun _ => (0, { reason := "EvictPod", involvedUID := 7 }))

/-- 100 `EvictPod` publishes for distinct pods within one second. -/
def evictDistinctScenario : List (Nat × Event) :=
  (List.range 100).map (fun i => (0, { reason := "EvictPod", involvedUID := i }))

/-- A 30-publish same-second `NominatePod` scenario for the C8 witness. -/
def scenarioW8 : List (Nat × Event) :=
  (List.range 30).map (fun i => (0, { reason := "NominatePod", involvedUID := 1000 + i }))

theorem applyUnsched_name (v : Bool) (n : NodeObj) : (applyUnsched v n).name = n.name := by
  unfold applyUnsched
  split
  · rfl
  · split <;> rfl

theorem applyUnsched_dtz (v : Bool) (n : NodeObj) :
    (applyUnsched v n).deletionTimestampZero = n.deletionTimestampZero := by
  unfold applyUnsched
  split
  · rfl
  · split <;> rfl

theorem applyUnsched_true (n : NodeObj) : (applyUnsched true n).unschedulable = true := by
  unfold applyUnsched
  split
  · next h => simp at h
  · split <;> simp_all

theorem applyUnsched_false (n : NodeObj) (h : n.deletionTimestampZero = true) :
    (applyUnsched false n).unschedulable = false := by
  unfold applyUnsched
  split
  · next hc => simp [h] at hc
  · split <;> simp_all

theorem applyUnsched_idem (v : Bool) (n : NodeObj) :
    applyUnsched v (applyUnsched v n) = applyUnsched v n := by
  unfold applyUnsched
  cases n with
  | mk nm ini uns dtz => cases v <;> cases uns <;> cases dtz <;> simp

theorem getNode_map_patch (l : List NodeObj) (x nm : String) (v : Bool) :
    getNode (l.map (fun m => if m.name = x then { m with unschedulable := v } else m)) nm =
      if nm = x then (getNode l nm).map (fun n => { n with unschedulable := v })
      else getNode l nm := by
  induction l with
  | nil => by_cases hx : nm = x <;> simp [getNode, hx]
  | cons m rest ih =>
    by_cases hmn : m.name = nm
    · by_cases hx : nm = x
      · have hmx : m.name = x := hmn.trans hx
        simp [getNode, hmx, hmn, hx]
      · have hmx : ¬ m.name = x := fun h => hx (hmn.symm.trans h)
        simp [getNode, hmx, hmn, hx]
    · by_cases hmx : m.name = x
      · have hxn : ¬ x = nm := fun h => hmn (hmx.trans h)
        have hnx : ¬ nm = x := fun h => hxn h.symm
        simp [getNode, hmx, hmn, hxn, hnx, ih]
      · simp [getNode, hmx, hmn, ih]

theorem getNode_patch (w : World) (x nm : String) (v : Bool) :
    getNode (patchNodeUnschedulable w x v).nodes nm =
      if nm = x then (getNode w.nodes nm).map (fun n => { n with unschedulable := v })
      else getNode w.nodes nm :=
  getNode_map_patch w.nodes x nm v

theorem applyUnsched_eq_of_skip (v : Bool) (n : NodeObj) (h : ¬v ∧ ¬n.deletionTimestampZero) :
    applyUnsched v n = n := by
  unfold applyUnsched
  rw [if_pos h]

theorem applyUnsched_eq_of_matches (v : Bool) (n : NodeObj) (h : n.unschedulable = v) :
    applyUnsched v n = n := by
  unfold applyUnsched
  simp [h]

theorem applyUnsched_eq_set (v : Bool) (n : NodeObj) (h1 : ¬(¬v ∧ ¬n.deletionTimestampZero))
    (h2 : ¬n.unschedulable = v) : applyUnsched v n = { n with unschedulable := v } := by
  unfold applyUnsched
  rw [if_neg h1, if_neg h2]

theorem setUnsched_marked : ∀ (ns : List String) (w : World) (v : Bool),
    (setNodesUnschedulable w v ns).1.markedForDeletion = w.markedForDeletion := by
  intro ns
  induction ns with
  | nil => intro w v; rfl
  | cons x rest ih =>
    intro w v
    unfold setNodesUnschedulable
    rcases hg : getNode w.nodes x with _ | node <;> simp only [hg]
    · exact ih w v
    · split
      · exact ih w v
      · split
        · exact ih w v
        · exact ih (patchNodeUnschedulable w x v) v

theorem setUnsched_consolidated : ∀ (ns : List String) (w : World) (v : Bool),
    (setNodesUnschedulable w v ns).1.consolidated = w.consolidated := by
  intro ns
  induction ns with
  | nil => intro w v; rfl
  | cons x rest ih =>
    intro w v
    unfold setNodesUnschedulable
    rcases hg : getNode w.nodes x with _ | node <;> simp only [hg]
    · exact ih w v
    · split
      · exact ih w v
      · split
        · exact ih w v
        · exact ih (patchNodeUnschedulable w x v) v

theorem setUnsched_trace : ∀ (ns : List String) (w : World) (v : Bool),
    ∃ delta, (setNodesUnschedulable w v ns).1.trace = w.trace ++ delta ∧
      ∀ a ∈ delta, ∃ nm, a = Act.patchUnschedulable nm v := by
  intro ns
  induction ns with
  | nil => intro w v; exact ⟨[], by simp [setNodesUnschedulable], by simp⟩
  | cons x rest ih =>
    intro w v
    unfold setNodesUnschedulable
    rcases hg : getNode w.nodes x with _ | node <;> simp only [hg]
    · exact ih w v
    · split
      · exact ih w v
      · split
        · exact ih w v
        · obtain ⟨delta, hd, hall⟩ := ih (patchNodeUnschedulable w x v) v
          refine ⟨Act.patchUnschedulable x v :: delta, ?_, ?_⟩
          · rw [hd]
            show (w.trace ++ [Act.patchUnschedulable x v]) ++ delta = _
            simp
          · intro a ha
            rcases List.mem_cons.1 ha with h | h
            · exact ⟨x, h⟩
            · exact hall a h

theorem setUnsched_getNode : ∀ (ns : List String) (w : World) (v : Bool) (nm : String),
    getNode (setNodesUnschedulable w v ns).1.nodes nm =
      if nm ∈ ns then (getNode w.nodes nm).map (applyUnsched v) else getNode w.nodes nm := by
  intro ns
  induction ns with
  | nil => intro w v nm; simp [setNodesUnschedulable]
  | cons x rest ih =>
    intro w v nm
    unfold setNodesUnschedulable
    rcases hg : getNode w.nodes x with _ | node <;> simp only [hg]
    · -- Get failed for the head name
      rw [show ((setNodesUnschedulable w v rest).1, true).1 = (setNodesUnschedulable w v rest).1 from rfl,
        ih w v nm]
      by_cases hx : nm = x
      · subst hx
        by_cases hr : nm ∈ rest <;> simp [hr, hg]
      · simp [List.mem_cons, hx]
    · split
      · next h1 =>
        -- skip: the node is already being deleted and this is an un-cordon
        rw [ih w v nm]
        by_cases hx : nm = x
        · subst hx
          have heq : applyUnsched v node = node := applyUnsched_eq_of_skip v node h1
          by_cases hr : nm ∈ rest <;> simp [hr, hg, heq]
        · simp [List.mem_cons, hx]
      · split
        · next h2 =>
          -- skip: already in the desired state
          rw [ih w v nm]
          by_cases hx : nm = x
          · subst hx
            have heq : applyUnsched v node = node := applyUnsched_eq_of_matches v node h2
            by_cases hr : nm ∈ rest <;> simp [hr, hg, heq]
          · simp [List.mem_cons, hx]
        · next h1 h2 =>
          rw [ih (patchNodeUnschedulable w x v) v nm, getNode_patch]
          by_cases hx : nm = x
          · subst hx
            have hset : applyUnsched v node = { node with unschedulable := v } :=
              applyUnsched_eq_set v node h1 h2
            have hagain : applyUnsched v { node with unschedulable := v } =
                { node with unschedulable := v } :=
              applyUnsched_eq_of_matches v _ rfl
            by_cases hr : nm ∈ rest <;> simp [hr, hg, hset, hagain]
          · simp [List.mem_cons, hx]

theorem setUnsched_flag_false : ∀ (ns : List String) (w : World) (v : Bool),
    (setNodesUnschedulable w v ns).2 = false →
      ∀ nm ∈ ns, (getNode w.nodes nm).isSome = true := by
  intro ns
  induction ns with
  | nil => intro w v _ nm h; simp at h
  | cons x rest ih =>
    intro w v hflag nm hnm
    unfold setNodesUnschedulable at hflag
    rcases hg : getNode w.nodes x with _ | node <;> simp only [hg] at hflag
    · simp at hflag
    · rcases List.mem_cons.1 hnm with h | h
      · subst h; simp [hg]
      · -- the presence of a node is not affected by any of the loop's patches
        split at hflag
        · exact ih w v hflag nm h
        · split at hflag
          · exact ih w v hflag nm h
          · have := ih (patchNodeUnschedulable w x v) v hflag nm h
            rw [getNode_patch] at this
            by_cases hx : nm = x
            · subst hx; simp [hg]
            · rw [if_neg hx] at this; exact this

theorem waitForReadinessAll_eq : ∀ (ns : List String) (env : Env) (w : World),
    waitForReadinessAll env w ns =
      ({ w with trace := w.trace ++ readyDelta env ns },
        ns.any (fun n => !env.readinessOk n)) := by
  intro ns
  induction ns with
  | nil => intro env w; simp [waitForReadinessAll, readyDelta]
  | cons n rest ih =>
    intro env w
    by_cases h : env.readinessOk n = true <;>
      simp [waitForReadinessAll, waitForReadiness, readyDelta, h, ih, List.any_cons]

theorem readyDelta_shape (env : Env) : ∀ (ns : List String) (a : Act), a ∈ readyDelta env ns →
    (∃ n, a = Act.publish "LaunchingNode" n) ∨ (∃ n, a = Act.publish "WaitingOnReadiness" n) ∨
    (∃ n, a = Act.observeInitialized n) := by
  intro ns
  induction ns with
  | nil => intro a ha; simp [readyDelta] at ha
  | cons n rest ih =>
    intro a ha
    unfold readyDelta at ha
    rcases List.mem_append.1 ha with h | h
    · by_cases hr : env.readinessOk n = true <;> simp [hr] at h <;>
        rcases h with h | h <;> simp [h]
    · exact ih a h

theorem readyDelta_observe (env : Env) : ∀ (ns : List String) (n : String), n ∈ ns →
    env.readinessOk n = true → Act.observeInitialized n ∈ readyDelta env ns := by
  intro ns
  induction ns with
  | nil => intro n hn; simp at hn
  | cons m rest ih =>
    intro n hn hok
    unfold readyDelta
    rcases List.mem_cons.1 hn with h | h
    · subst h; simp [hok]
    · exact List.mem_append.2 (Or.inr (ih n h hok))

theorem deleteOldNodes_eq : ∀ (l : List NodeObj) (w : World),
    deleteOldNodes w l = { w with nodes := removeNodes w.nodes l, trace := w.trace ++ termDelta l } := by
  intro l
  induction l with
  | nil => intro w; simp [deleteOldNodes, removeNodes, termDelta]
  | cons n rest ih =>
    intro w
    show deleteOldNodes _ rest = _
    rw [ih]
    simp [removeNodes, termDelta]

theorem waitForDeletionAll_eq : ∀ (l : List NodeObj) (w : World),
    waitForDeletionAll w l = { w with trace := w.trace ++ waitDelta l } := by
  intro l
  induction l with
  | nil => intro w; simp [waitForDeletionAll, waitDelta]
  | cons n rest ih =>
    intro w
    show waitForDeletionAll _ rest = _
    rw [ih]
    simp [waitDelta]

theorem termDelta_shape : ∀ (l : List NodeObj) (a : Act), a ∈ termDelta l →
    (∃ n, a = Act.publish "TerminatingNode" n) ∨ (∃ n, a = Act.deleteCall n) := by
  intro l
  induction l with
  | nil => intro a ha; simp [termDelta] at ha
  | cons n rest ih =>
    intro a ha
    unfold termDelta at ha
    rcases List.mem_cons.1 ha with h | h
    · exact Or.inl ⟨n.name, h⟩
    · rcases List.mem_cons.1 h with h2 | h2
      · exact Or.inr ⟨n.name, h2⟩
      · exact ih a h2

theorem termDelta_pair : ∀ (l : List NodeObj) (n : NodeObj), n ∈ l →
    ∃ A B, termDelta l =
      A ++ Act.publish "TerminatingNode" n.name :: Act.deleteCall n.name :: B := by
  intro l
  induction l with
  | nil => intro n hn; simp at hn
  | cons m rest ih =>
    intro n hn
    rcases List.mem_cons.1 hn with h | h
    · subst h
      exact ⟨[], termDelta rest, rfl⟩
    · obtain ⟨A, B, hab⟩ := ih n h
      exact ⟨Act.publish "TerminatingNode" m.name :: Act.deleteCall m.name :: A, B, by
        unfold termDelta
        rw [hab]
        simp⟩

theorem waitDelta_shape : ∀ (l : List NodeObj) (a : Act), a ∈ waitDelta l →
    ∃ n, a = Act.waitDeletion n := by
  intro l
  induction l with
  | nil => intro a ha; simp [waitDelta] at ha
  | cons n rest ih =>
    intro a ha
    unfold waitDelta at ha
    rcases List.mem_cons.1 ha with h | h
    · exact ⟨n.name, h⟩
    · exact ih a h

/-- Generic trace-ordering helper: if nothing in `A` satisfies `q` and nothing
in `B` satisfies `p`, every `p`-action in `A ++ B` is strictly earlier than
every `q`-action. -/
theorem ordered_append {A B : List Act} {p q : Act → Prop}
    (hA : ∀ a ∈ A, ¬ q a) (hB : ∀ b ∈ B, ¬ p b) :
    ∀ (i j : Nat) (a b : Act),
      (A ++ B)[i]? = some a → p a → (A ++ B)[j]? = some b → q b → i < j := by
  intro i j a b hi hpa hj hqb
  have hiA : i < A.length := by
    by_contra hlt
    push_neg at hlt
    rw [List.getElem?_append_right hlt] at hi
    exact hB a (List.getElem?_mem hi) hpa
  have hjA : A.length ≤ j := by
    by_contra hlt
    push_neg at hlt
    rw [List.getElem?_append_left hlt] at hj
    exact hA b (List.getElem?_mem hj) hqb
  exact Nat.lt_of_lt_of_le hiA hjA

theorem observedBeforeAllDeletes_of_append {A B : List Act} {r : String}
    (hmem : Act.observeInitialized r ∈ A)
    (hnodel : ∀ a ∈ A, ∀ d, a ≠ Act.deleteCall d) :
    observedBeforeAllDeletes (A ++ B) r := by
  intro i d hi
  obtain ⟨j, hj⟩ := List.get?_of_mem hmem
  rw [List.get?_eq_getElem?] at hj
  have hjlen : j < A.length := (List.getElem?_eq_some.1 hj).1
  have hilen : A.length ≤ i := by
    by_contra hlt
    push_neg at hlt
    rw [List.getElem?_append_left hlt] at hi
    exact hnodel _ (List.getElem?_mem hi) d rfl
  refine ⟨j, Nat.lt_of_lt_of_le hjlen hilen, ?_⟩
  rw [List.getElem?_append_left hjlen]
  exact hj

theorem launch_success_eq (env : Env) (w : World) (action : Command) (names : List String)
    (hc : (setNodesUnschedulable w true (action.nodesToRemove.map (fun n => n.name))).2 = false)
    (hl : env.launchResult = some names)
    (hlen : names.length = action.replacementNodes.length)
    (hready : names.any (fun n => !env.readinessOk n) = false) :
    launchReplacementNodes env w action =
      ({ nodes := (setNodesUnschedulable w true (action.nodesToRemove.map (fun n => n.name))).1.nodes,
         markedForDeletion :=
           (setNodesUnschedulable w true (action.nodesToRemove.map (fun n => n.name))).1.markedForDeletion
             ++ action.nodesToRemove.map (fun n => n.name),
         consolidated :=
           (setNodesUnschedulable w true (action.nodesToRemove.map (fun n => n.name))).1.consolidated,
         trace :=
           ((setNodesUnschedulable w true (action.nodesToRemove.map (fun n => n.name))).1.trace
             ++ [Act.launchCall]) ++ readyDelta env names }, none) := by
  simp [launchReplacementNodes, hc, hl, hlen, waitForReadinessAll_eq, hready]

theorem launch_fail_eq (env : Env) (w : World) (action : Command)
    (hc : (setNodesUnschedulable w true (action.nodesToRemove.map (fun n => n.name))).2 = false)
    (hl : env.launchResult = none) :
    launchReplacementNodes env w action =
      ((setNodesUnschedulable
          { (setNodesUnschedulable w true (action.nodesToRemove.map (fun n => n.name))).1 with
            trace := (setNodesUnschedulable w true
              (action.nodesToRemove.map (fun n => n.name))).1.trace ++ [Act.launchCall] }
          false (action.nodesToRemove.map (fun n => n.name))).1,
        some ExecError.launchFailed) := by
  simp [launchReplacementNodes, hc, hl]

theorem count_mismatch_eq (env : Env) (w : World) (action : Command) (names : List String)
    (hc : (setNodesUnschedulable w true (action.nodesToRemove.map (fun n => n.name))).2 = false)
    (hl : env.launchResult = some names)
    (hlen : ¬ names.length = action.replacementNodes.length) :
    launchReplacementNodes env w action =
      ({ (setNodesUnschedulable w true (action.nodesToRemove.map (fun n => n.name))).1 with
          trace := (setNodesUnschedulable w true
            (action.nodesToRemove.map (fun n => n.name))).1.trace ++ [Act.launchCall] },
        some ExecError.countMismatch) := by
  simp [launchReplacementNodes, hc, hl, hlen]

theorem readiness_fail_eq (env : Env) (w : World) (action : Command) (names : List String)
    (hc : (setNodesUnschedulable w true (action.nodesToRemove.map (fun n => n.name))).2 = false)
    (hl : env.launchResult = some names)
    (hlen : names.length = action.replacementNodes.length)
    (hready : names.any (fun n => !env.readinessOk n) = true) :
    launchReplacementNodes env w action =
      ((setNodesUnschedulable
          { nodes := (setNodesUnschedulable w true (action.nodesToRemove.map (fun n => n.name))).1.nodes,
            markedForDeletion :=
              ((setNodesUnschedulable w true
                  (action.nodesToRemove.map (fun n => n.name))).1.markedForDeletion
                ++ action.nodesToRemove.map (fun n => n.name)).filter
                (fun nm => !(decide (nm ∈ action.nodesToRemove.map (fun n => n.name)))),
            consolidated :=
              (setNodesUnschedulable w true
                (action.nodesToRemove.map (fun n => n.name))).1.consolidated,
            trace :=
              ((setNodesUnschedulable w true
                  (action.nodesToRemove.map (fun n => n.name))).1.trace
                ++ [Act.launchCall]) ++ readyDelta env names }
          false (action.nodesToRemove.map (fun n => n.name))).1,
        some ExecError.readinessTimeout) := by
  simp [launchReplacementNodes, hc, hl, hlen, waitForReadinessAll_eq, hready]

/-- The full trace of a successful replace execution, split at the point where
the delete loop starts. -/
theorem executeCommand_success_trace
    (env : Env) (w : World) (command : Command) (names : List String)
    (ha : command.action = CommandAction.actionReplace)
    (hc : (setNodesUnschedulable w true (command.nodesToRemove.map (fun n => n.name))).2 = false)
    (hl : env.launchResult = some names)
    (hlen : names.length = command.replacementNodes.length)
    (hready : names.any (fun n => !env.readinessOk n) = false) :
    (executeCommand env w command).1.trace =
      ((setNodesUnschedulable w true (command.nodesToRemove.map (fun n => n.name))).1.trace
        ++ [Act.launchCall] ++ readyDelta env names)
      ++ (termDelta command.nodesToRemove ++ waitDelta command.nodesToRemove) := by
  have hL := launch_success_eq env w command names hc hl hlen hready
  simp [executeCommand, ha, hL, deleteOldNodes_eq, waitForDeletionAll_eq, List.append_assoc]

/-- C1: for a replace command whose execution succeeds, every launched
replacement node (the nodes realizing `C.replacementNodes`) is observed
carrying the `initialized` label strictly before any `Delete` call is issued. -/
theorem replace_success_observes_initialized_before_delete
    (env : Env) (w : World) (command : Command) (names : List String)
    (ha : command.action = CommandAction.actionReplace)
    (hc : (setNodesUnschedulable w true (command.nodesToRemove.map (fun n => n.name))).2 = false)
    (hl : env.launchResult = some names)
    (hlen : names.length = command.replacementNodes.length)
    (hready : names.any (fun n => !env.readinessOk n) = false)
    (htr : w.trace = []) :
    (executeCommand env w command).2 = none ∧
    ∀ r ∈ names, observedBeforeAllDeletes (executeCommand env w command).1.trace r := by
  have hL := launch_success_eq env w command names hc hl hlen hready
  constructor
  · simp [executeCommand, ha, hL]
  · intro r hr
    rw [executeCommand_success_trace env w command names ha hc hl hlen hready]
    have hok : env.readinessOk r = true := by
      by_contra hno
      have : names.any (fun n => !env.readinessOk n) = true :=
        List.any_eq_true.2 ⟨r, hr, by simp [Bool.eq_false_iff.2 hno]⟩
      rw [this] at hready
      exact absurd hready (by simp)
    apply observedBeforeAllDeletes_of_append
    · exact List.mem_append.2 (Or.inr (readyDelta_observe env names r hr hok))
    · intro a haA d
      obtain ⟨delta, hdeq, hshape⟩ :=
        setUnsched_trace (command.nodesToRemove.map (fun n => n.name)) w true
      rcases List.mem_append.1 haA with h1 | h2
      · rcases List.mem_append.1 h1 with h3 | h4
        · rw [hdeq, htr] at h3
          simp only [List.nil_append] at h3
          obtain ⟨nm, hnm⟩ := hshape a h3
          subst hnm
          simp
        · simp at h4
          subst h4
          simp
      · rcases readyDelta_shape env names a h2 with ⟨n, hn⟩ | ⟨n, hn⟩ | ⟨n, hn⟩ <;>
          subst hn <;> simp

theorem replace_success_observes_initialized_before_delete_witness :
    (executeCommand envW1 worldW1 cmdW1).2 = none ∧
    ∀ r ∈ ["repl1"], observedBeforeAllDeletes (executeCommand envW1 worldW1 cmdW1).1.trace r :=
  replace_success_observes_initialized_before_delete envW1 worldW1 cmdW1 ["repl1"]
    rfl (by decide) rfl rfl (by decide) rfl

theorem executeCommand_of_launch_err (env : Env) (w : World) (command : Command) (e : ExecError)
    (ha : command.action = CommandAction.actionReplace)
    (h : (launchReplacementNodes env w command).2 = some e) :
    executeCommand env w command = ((launchReplacementNodes env w command).1, some e) := by
  simp [executeCommand, ha, h]

theorem uncordon_trace_mem (W : World) (rm : List String) (a : Act)
    (h : a ∈ (setNodesUnschedulable W false rm).1.trace) :
    a ∈ W.trace ∨ ∃ nm, a = Act.patchUnschedulable nm false := by
  obtain ⟨delta, hd, hs⟩ := setUnsched_trace rm W false
  rw [hd] at h
  rcases List.mem_append.1 h with h1 | h2
  · exact Or.inl h1
  · exact Or.inr (hs a h2)

theorem uncordon_unsched (W : World) (rm : List String) (nm : String) (hmem : nm ∈ rm)
    (n : NodeObj) (hget : getNode (setNodesUnschedulable W false rm).1.nodes nm = some n)
    (hdz : n.deletionTimestampZero = true) : n.unschedulable = false := by
  rw [setUnsched_getNode, if_pos hmem] at hget
  cases hg : getNode W.nodes nm with
  | none => rw [hg] at hget; simp at hget
  | some n2 =>
    rw [hg] at hget
    simp at hget
    have hdz2 : n2.deletionTimestampZero = true := by
      rw [← hget] at hdz
      rwa [applyUnsched_dtz] at hdz
    rw [← hget]
    exact applyUnsched_false n2 hdz2

/-- C2 (amended): if the readiness wait fails for some replacement node,
`executeCommand` returns an error, no old node is deleted, every old node is
unmarked for deletion, and every old node that is not already being deleted
(zero deletion timestamp) has `unschedulable=false` on return; a node whose
deletion timestamp is non-zero is skipped by the un-cordon. -/
theorem readiness_failure_rollback_amended
    (env : Env) (w : World) (command : Command) (names : List String)
    (ha : command.action = CommandAction.actionReplace)
    (hc : (setNodesUnschedulable w true (command.nodesToRemove.map (fun n => n.name))).2 = false)
    (hl : env.launchResult = some names)
    (hlen : names.length = command.replacementNodes.length)
    (hready : names.any (fun n => !env.readinessOk n) = true)
    (htr : w.trace = []) :
    (executeCommand env w command).2 = some ExecError.readinessTimeout ∧
    (∀ a ∈ (executeCommand env w command).1.trace, ∀ d, a ≠ Act.deleteCall d) ∧
    (∀ nm ∈ command.nodesToRemove.map (fun n => n.name),
      nm ∉ (executeCommand env w command).1.markedForDeletion) ∧
    (∀ nm ∈ command.nodesToRemove.map (fun n => n.name), ∀ n : NodeObj,
      getNode (executeCommand env w command).1.nodes nm = some n →
      n.deletionTimestampZero = true → n.unschedulable = false) := by
  have hR := readiness_fail_eq env w command names hc hl hlen hready
  have hEC : executeCommand env w command =
      ((launchReplacementNodes env w command).1, some ExecError.readinessTimeout) :=
    executeCommand_of_launch_err env w command ExecError.readinessTimeout ha (by rw [hR])
  obtain ⟨delta1, hd1, hs1⟩ :=
    setUnsched_trace (command.nodesToRemove.map (fun n => n.name)) w true
  refine ⟨by rw [hEC], ?_, ?_, ?_⟩
  · intro a haT d
    rw [hEC, hR] at haT
    rcases uncordon_trace_mem _ _ a haT with h5 | ⟨nm, hnm⟩
    · simp only [] at h5
      rcases List.mem_append.1 h5 with h1 | h2
      · rcases List.mem_append.1 h1 with h3 | h4
        · rw [hd1, htr] at h3
          simp only [List.nil_append] at h3
          obtain ⟨nm, hnm⟩ := hs1 a h3
          subst hnm
          simp
        · simp at h4
          subst h4
          simp
      · rcases readyDelta_shape env names a h2 with ⟨n, hn⟩ | ⟨n, hn⟩ | ⟨n, hn⟩ <;>
          subst hn <;> simp
    · subst hnm
      simp
  · intro nm hnm hmem
    rw [hEC, hR] at hmem
    rw [setUnsched_marked] at hmem
    simp only [] at hmem
    have hpred := (List.mem_filter.1 hmem).2
    rw [Bool.not_eq_true', decide_eq_false_iff_not] at hpred
    exact hpred hnm
  · intro nm hnm n hget hdz
    rw [hEC, hR] at hget
    exact uncordon_unsched _ _ nm hnm n hget hdz

/-- C2 counterexample: the readiness wait fails, `executeCommand` errors, yet
the old node `a2` (whose deletion timestamp is non-zero) still has
`unschedulable=true` on return, contradicting the claim that every node in
`C.nodesToRemove` has `unschedulable=false` on return. -/
theorem readiness_failure_uncordon_counterexample :
    envC2.readinessOk "replc2" = false ∧
    (executeCommand envC2 worldC2 cmdC2).2 = some ExecError.readinessTimeout ∧
    "a2" ∈ cmdC2.nodesToRemove.map (fun n => n.name) ∧
    getNode (executeCommand envC2 worldC2 cmdC2).1.nodes "a2" = some nodeC2 := by
  refine ⟨rfl, ?_, by simp [cmdC2, nodeC2], ?_⟩ <;> decide

theorem readiness_failure_rollback_amended_witness :
    (executeCommand envW2 worldW2 cmdW2).2 = some ExecError.readinessTimeout ∧
    (∀ a ∈ (executeCommand envW2 worldW2 cmdW2).1.trace, ∀ d, a ≠ Act.deleteCall d) ∧
    (∀ nm ∈ cmdW2.nodesToRemove.map (fun n => n.name),
      nm ∉ (executeCommand envW2 worldW2 cmdW2).1.markedForDeletion) ∧
    (∀ nm ∈ cmdW2.nodesToRemove.map (fun n => n.name), ∀ n : NodeObj,
      getNode (executeCommand envW2 worldW2 cmdW2).1.nodes nm = some n →
      n.deletionTimestampZero = true → n.unschedulable = false) :=
  readiness_failure_rollback_amended envW2 worldW2 cmdW2 ["replw2"]
    rfl (by decide) rfl rfl (by decide) rfl

/-- C6 (amended): if `LaunchMachines` fails, the executor returns the error,
no node in `nodesToRemove` is deleted, none is marked for deletion, and the
un-cordon step sets `unschedulable=false` on every old node not already being
deleted; a node with a non-zero deletion timestamp is skipped. -/
theorem launch_failure_rollback_amended
    (env : Env) (w : World) (command : Command)
    (ha : command.action = CommandAction.actionReplace)
    (hc : (setNodesUnschedulable w true (command.nodesToRemove.map (fun n => n.name))).2 = false)
    (hl : env.launchResult = none)
    (htr : w.trace = []) :
    (executeCommand env w command).2 = some ExecError.launchFailed ∧
    (∀ a ∈ (executeCommand env w command).1.trace, ∀ d, a ≠ Act.deleteCall d) ∧
    (executeCommand env w command).1.markedForDeletion = w.markedForDeletion ∧
    (∀ nm ∈ command.nodesToRemove.map (fun n => n.name), ∀ n : NodeObj,
      getNode (executeCommand env w command).1.nodes nm = some n →
      n.deletionTimestampZero = true → n.unschedulable = false) := by
  have hF := launch_fail_eq env w command hc hl
  have hEC : executeCommand env w command =
      ((launchReplacementNodes env w command).1, some ExecError.launchFailed) :=
    executeCommand_of_launch_err env w command ExecError.launchFailed ha (by rw [hF])
  obtain ⟨delta1, hd1, hs1⟩ :=
    setUnsched_trace (command.nodesToRemove.map (fun n => n.name)) w true
  refine ⟨by rw [hEC], ?_, ?_, ?_⟩
  · intro a haT d
    rw [hEC, hF] at haT
    rcases uncordon_trace_mem _ _ a haT with h5 | ⟨nm, hnm⟩
    · rcases List.mem_append.1 h5 with h3 | h4
      · rw [hd1, htr] at h3
        simp only [List.nil_append] at h3
        obtain ⟨nm, hnm⟩ := hs1 a h3
        subst hnm
        simp
      · simp at h4
        subst h4
        simp
    · subst hnm
      simp
  · rw [hEC, hF]
    rw [setUnsched_marked]
    exact setUnsched_marked (command.nodesToRemove.map (fun n => n.name)) w true
  · intro nm hnm n hget hdz
    rw [hEC, hF] at hget
    exact uncordon_unsched _ _ nm hnm n hget hdz

/-- C6 counterexample: the launch fails and the executor errors without
deleting or marking, but old node `b6` ends the tick with `unschedulable=true`
(the cordon set it and the rollback un-cordon skipped it because its deletion
timestamp is non-zero), contradicting "un-cordons the old nodes (sets
unschedulable=false)". -/
theorem launch_failure_uncordon_counterexample :
    envC6.launchResult = none ∧
    (executeCommand envC6 worldC6 cmdC6).2 = some ExecError.launchFailed ∧
    "b6" ∈ cmdC6.nodesToRemove.map (fun n => n.name) ∧
    getNode (executeCommand envC6 worldC6 cmdC6).1.nodes "b6" =
      some { name := "b6", initialized := false, unschedulable := true,
             deletionTimestampZero := false } := by
  refine ⟨rfl, ?_, by simp [cmdC6, nodeC6], ?_⟩ <;> decide

theorem launch_failure_rollback_amended_witness :
    (executeCommand envW6 worldW6 cmdW6).2 = some ExecError.launchFailed ∧
    (∀ a ∈ (executeCommand envW6 worldW6 cmdW6).1.trace, ∀ d, a ≠ Act.deleteCall d) ∧
    (executeCommand envW6 worldW6 cmdW6).1.markedForDeletion = worldW6.markedForDeletion ∧
    (∀ nm ∈ cmdW6.nodesToRemove.map (fun n => n.name), ∀ n : NodeObj,
      getNode (executeCommand envW6 worldW6 cmdW6).1.nodes nm = some n →
      n.deletionTimestampZero = true → n.unschedulable = false) :=
  launch_failure_rollback_amended envW6 worldW6 cmdW6 rfl (by decide) rfl rfl

/-- C9: if `LaunchMachines` succeeds but returns a number of names different
from `len(replacementNodes)`, `launchReplacementNodes` errors without
un-cordoning and without marking: the marked set is unchanged, no delete is
issued, no un-cordon patch appears in the trace, and every old node is left
cordoned (`unschedulable=true`). -/
theorem count_mismatch_leaves_cordon_and_marks
    (env : Env) (w : World) (command : Command) (names : List String)
    (ha : command.action = CommandAction.actionReplace)
    (hc : (setNodesUnschedulable w true (command.nodesToRemove.map (fun n => n.name))).2 = false)
    (hl : env.launchResult = some names)
    (hlen : ¬ names.length = command.replacementNodes.length)
    (htr : w.trace = []) :
    (executeCommand env w command).2 = some ExecError.countMismatch ∧
    (executeCommand env w command).1.markedForDeletion = w.markedForDeletion ∧
    (∀ a ∈ (executeCommand env w command).1.trace, ∀ d, a ≠ Act.deleteCall d) ∧
    (∀ a ∈ (executeCommand env w command).1.trace, ∀ nm, a ≠ Act.patchUnschedulable nm false) ∧
    (∀ nm ∈ command.nodesToRemove.map (fun n => n.name),
      ∃ n, getNode (executeCommand env w command).1.nodes nm = some n ∧
        n.unschedulable = true) := by
  have hM := count_mismatch_eq env w command names hc hl hlen
  have hEC : executeCommand env w command =
      ((launchReplacementNodes env w command).1, some ExecError.countMismatch) :=
    executeCommand_of_launch_err env w command ExecError.countMismatch ha (by rw [hM])
  obtain ⟨delta1, hd1, hs1⟩ :=
    setUnsched_trace (command.nodesToRemove.map (fun n => n.name)) w true
  refine ⟨by rw [hEC], ?_, ?_, ?_, ?_⟩
  · rw [hEC, hM]
    exact setUnsched_marked (command.nodesToRemove.map (fun n => n.name)) w true
  · intro a haT d
    rw [hEC, hM] at haT
    rcases List.mem_append.1 haT with h3 | h4
    · rw [hd1, htr] at h3
      simp only [List.nil_append] at h3
      obtain ⟨nm, hnm⟩ := hs1 a h3
      subst hnm
      simp
    · simp at h4
      subst h4
      simp
  · intro a haT nm
    rw [hEC, hM] at haT
    rcases List.mem_append.1 haT with h3 | h4
    · rw [hd1, htr] at h3
      simp only [List.nil_append] at h3
      obtain ⟨nm2, hnm2⟩ := hs1 a h3
      subst hnm2
      simp
    · simp at h4
      subst h4
      simp
  · intro nm hnm
    have hfound := setUnsched_flag_false (command.nodesToRemove.map (fun n => n.name)) w true hc nm hnm
    obtain ⟨n1, hn1⟩ := Option.isSome_iff_exists.1 hfound
    refine ⟨applyUnsched true n1, ?_, applyUnsched_true n1⟩
    rw [hEC, hM]
    have hchar := setUnsched_getNode (command.nodesToRemove.map (fun n => n.name)) w true nm
    rw [if_pos hnm, hn1] at hchar
    simpa using hchar

theorem count_mismatch_leaves_cordon_and_marks_witness :
    (executeCommand envW9 worldW9 cmdW9).2 = some ExecError.countMismatch ∧
    (executeCommand envW9 worldW9 cmdW9).1.markedForDeletion = worldW9.markedForDeletion ∧
    (∀ a ∈ (executeCommand envW9 worldW9 cmdW9).1.trace, ∀ d, a ≠ Act.deleteCall d) ∧
    (∀ a ∈ (executeCommand envW9 worldW9 cmdW9).1.trace, ∀ nm,
      a ≠ Act.patchUnschedulable nm false) ∧
    (∀ nm ∈ cmdW9.nodesToRemove.map (fun n => n.name),
      ∃ n, getNode (executeCommand envW9 worldW9 cmdW9).1.nodes nm = some n ∧
        n.unschedulable = true) :=
  count_mismatch_leaves_cordon_and_marks envW9 worldW9 cmdW9 ["x9", "y9"]
    rfl (by decide) rfl (by decide) rfl

theorem adjacent_getElem (A B : List Act) (x y : Act) :
    (A ++ x :: y :: B)[A.length]? = some x ∧ (A ++ x :: y :: B)[A.length + 1]? = some y := by
  constructor
  · rw [List.getElem?_append_right (Nat.le_refl _)]
    simp
  · rw [List.getElem?_append_right (Nat.le_add_right _ _)]
    simp

/-- C5 counterexample: in a successful replace execution the very first trace
action is the cordon patch of the old node, so no `TerminatingNode` event
precedes the cordon (or the launch): the event is not the first step. -/
theorem terminating_event_first_counterexample :
    (executeCommand envC5 worldC5 cmdC5).2 = none ∧
    (executeCommand envC5 worldC5 cmdC5).1.trace[0]? =
      some (Act.patchUnschedulable "old5" true) ∧
    ¬ terminatingNodeEmittedFirst (executeCommand envC5 worldC5 cmdC5).1.trace := by
  refine ⟨by decide, by decide, ?_⟩
  intro h
  obtain ⟨j, hj, -⟩ :=
    h 0 (Act.patchUnschedulable "old5" true) (by decide) (Or.inl ⟨"old5", true, rfl⟩)
  exact Nat.not_lt_zero j hj

theorem termDelta_adjacent_in (T0 W : List Act) (l : List NodeObj) (n : NodeObj) (hn : n ∈ l) :
    ∃ i : Nat, (T0 ++ (termDelta l ++ W))[i]? = some (Act.publish "TerminatingNode" n.name) ∧
      (T0 ++ (termDelta l ++ W))[i + 1]? = some (Act.deleteCall n.name) := by
  obtain ⟨P, Q, hPQ⟩ := termDelta_pair l n hn
  have hsplit : T0 ++ (termDelta l ++ W) =
      (T0 ++ P) ++ (Act.publish "TerminatingNode" n.name :: Act.deleteCall n.name
        :: (Q ++ W)) := by
    rw [hPQ]
    simp [List.append_assoc]
  rw [hsplit]
  exact ⟨(T0 ++ P).length, (adjacent_getElem _ _ _ _).1, (adjacent_getElem _ _ _ _).2⟩

/-- C5 (amended): for every command whose execution reaches the delete loop,
the `TerminatingNode` event for each old node is emitted immediately before
that node's Delete call — unconditionally for non-replace commands, and on
the success path for replace commands, where additionally every cordon patch
precedes every `TerminatingNode` publish (the event is not the first step). -/
theorem terminating_event_order_amended :
    (∀ (env : Env) (w : World) (command : Command),
      ¬ command.action = CommandAction.actionReplace → w.trace = [] →
      ∀ n ∈ command.nodesToRemove, ∃ i : Nat,
        (executeCommand env w command).1.trace[i]? =
          some (Act.publish "TerminatingNode" n.name) ∧
        (executeCommand env w command).1.trace[i + 1]? = some (Act.deleteCall n.name)) ∧
    (∀ (env : Env) (w : World) (command : Command) (names : List String),
      command.action = CommandAction.actionReplace →
      (setNodesUnschedulable w true (command.nodesToRemove.map (fun n => n.name))).2 = false →
      env.launchResult = some names →
      names.length = command.replacementNodes.length →
      names.any (fun n => !env.readinessOk n) = false →
      w.trace = [] →
      (∀ n ∈ command.nodesToRemove, ∃ i : Nat,
        (executeCommand env w command).1.trace[i]? =
          some (Act.publish "TerminatingNode" n.name) ∧
        (executeCommand env w command).1.trace[i + 1]? = some (Act.deleteCall n.name)) ∧
      (∀ (i j : Nat) (nm : String) (b : Bool) (m : String),
        (executeCommand env w command).1.trace[i]? = some (Act.patchUnschedulable nm b) →
        (executeCommand env w command).1.trace[j]? = some (Act.publish "TerminatingNode" m) →
        i < j)) := by
  constructor
  · -- delete-only (and any non-replace) commands: the executor goes straight
    -- to the publish/delete loop
    intro env w command ha htr n hn
    have hexec : (executeCommand env w command).1.trace =
        [] ++ (termDelta command.nodesToRemove ++ waitDelta command.nodesToRemove) := by
      simp [executeCommand, ha, deleteOldNodes_eq, waitForDeletionAll_eq, htr]
    rw [hexec]
    exact termDelta_adjacent_in [] (waitDelta command.nodesToRemove)
      command.nodesToRemove n hn
  · intro env w command names ha hc hl hlen hready htr
    have htrace := executeCommand_success_trace env w command names ha hc hl hlen hready
    obtain ⟨delta1, hd1, hs1⟩ :=
      setUnsched_trace (command.nodesToRemove.map (fun n => n.name)) w true
    constructor
    · intro n hn
      rw [htrace]
      exact termDelta_adjacent_in _ (waitDelta command.nodesToRemove)
        command.nodesToRemove n hn
    · intro i j nm b m hi hj
      rw [htrace] at hi hj
      refine ordered_append (p := fun a => ∃ nm2 b2, a = Act.patchUnschedulable nm2 b2)
        (q := fun a => ∃ m2, a = Act.publish "TerminatingNode" m2) ?_ ?_ i j _ _ hi ⟨nm, b, rfl⟩
        hj ⟨m, rfl⟩
      · intro a haA
        rintro ⟨m2, he⟩
        subst he
        rcases List.mem_append.1 haA with h1 | h2
        · rcases List.mem_append.1 h1 with h3 | h4
          · rw [hd1, htr] at h3
            simp only [List.nil_append] at h3
            obtain ⟨nm3, hnm3⟩ := hs1 _ h3
            cases hnm3
          · simp at h4
        · rcases readyDelta_shape env names _ h2 with ⟨n2, hn2⟩ | ⟨n2, hn2⟩ | ⟨n2, hn2⟩ <;>
            simp_all
      · intro a haB
        rintro ⟨nm2, b2, he⟩
        subst he
        rcases List.mem_append.1 haB with h1 | h2
        · rcases termDelta_shape command.nodesToRemove _ h1 with ⟨n2, hn2⟩ | ⟨n2, hn2⟩ <;>
            cases hn2
        · obtain ⟨n2, hn2⟩ := waitDelta_shape command.nodesToRemove _ h2
          cases hn2

theorem terminating_event_order_amended_witness :
    (∀ n ∈ cmdW5d.nodesToRemove, ∃ i : Nat,
      (executeCommand envW5 worldW5d cmdW5d).1.trace[i]? =
        some (Act.publish "TerminatingNode" n.name) ∧
      (executeCommand envW5 worldW5d cmdW5d).1.trace[i + 1]? =
        some (Act.deleteCall n.name)) ∧
    (∀ n ∈ cmdW5.nodesToRemove, ∃ i : Nat,
      (executeCommand envW5 worldW5 cmdW5).1.trace[i]? =
        some (Act.publish "TerminatingNode" n.name) ∧
      (executeCommand envW5 worldW5 cmdW5).1.trace[i + 1]? = some (Act.deleteCall n.name)) ∧
    (∀ (i j : Nat) (nm : String) (b : Bool) (m : String),
      (executeCommand envW5 worldW5 cmdW5).1.trace[i]? = some (Act.patchUnschedulable nm b) →
      (executeCommand envW5 worldW5 cmdW5).1.trace[j]? = some (Act.publish "TerminatingNode" m) →
      i < j) :=
  ⟨terminating_event_order_amended.1 envW5 worldW5d cmdW5d (by decide) rfl,
   (terminating_event_order_amended.2 envW5 worldW5 cmdW5 ["r5w"]
      rfl (by decide) rfl rfl (by decide) rfl).1,
   (terminating_event_order_amended.2 envW5 worldW5 cmdW5 ["r5w"]
      rfl (by decide) rfl rfl (by decide) rfl).2⟩

theorem reconcileLoop_cons_err (env : Env) (w : World) (d : Deprovisioner)
    (rest : List Deprovisioner) (e : Unit) (hg : d.candidatesResult = Except.error e) :
    reconcileLoop env w (d :: rest) = (w, ReconcileResult.err, []) := by
  unfold reconcileLoop
  rw [hg]

theorem reconcileLoop_cons_empty (env : Env) (w : World) (d : Deprovisioner)
    (rest : List Deprovisioner) (cs : List Nat) (hg : d.candidatesResult = Except.ok cs)
    (hce : cs.isEmpty = true) :
    reconcileLoop env w (d :: rest) = reconcileLoop env w rest := by
  conv_lhs => rw [reconcileLoop]
  rw [hg]
  simp [hce]

theorem reconcileLoop_cons_compute_err (env : Env) (w : World) (d : Deprovisioner)
    (rest : List Deprovisioner) (cs : List Nat) (e : Unit)
    (hg : d.candidatesResult = Except.ok cs) (hce : cs.isEmpty = false)
    (hc : d.computeResult = Except.error e) :
    reconcileLoop env w (d :: rest) = (w, ReconcileResult.err, []) := by
  unfold reconcileLoop
  rw [hg]
  simp [hce, hc]

theorem reconcileLoop_cons_doNothing (env : Env) (w : World) (d : Deprovisioner)
    (rest : List Deprovisioner) (cs : List Nat) (cmd : Command)
    (hg : d.candidatesResult = Except.ok cs) (hce : cs.isEmpty = false)
    (hc : d.computeResult = Except.ok cmd)
    (h1 : cmd.action = CommandAction.actionDoNothing) :
    reconcileLoop env w (d :: rest) = reconcileLoop env w rest := by
  conv_lhs => rw [reconcileLoop]
  rw [hg]
  simp [hce, hc, h1]

theorem reconcileLoop_cons_retry (env : Env) (w : World) (d : Deprovisioner)
    (rest : List Deprovisioner) (cs : List Nat) (cmd : Command)
    (hg : d.candidatesResult = Except.ok cs) (hce : cs.isEmpty = false)
    (hc : d.computeResult = Except.ok cmd)
    (h2 : cmd.action = CommandAction.actionRetry) :
    reconcileLoop env w (d :: rest) = (w, ReconcileResult.requeue, []) := by
  unfold reconcileLoop
  rw [hg]
  have h1 : ¬ cmd.action = CommandAction.actionDoNothing := by
    rw [h2]
    intro hcontra
    cases hcontra
  simp [hce, hc, h1, h2]

theorem reconcileLoop_cons_exec (env : Env) (w : World) (d : Deprovisioner)
    (rest : List Deprovisioner) (cs : List Nat) (cmd : Command)
    (hg : d.candidatesResult = Except.ok cs) (hce : cs.isEmpty = false)
    (hc : d.computeResult = Except.ok cmd)
    (h1 : ¬ cmd.action = CommandAction.actionDoNothing)
    (h2 : ¬ cmd.action = CommandAction.actionRetry) :
    reconcileLoop env w (d :: rest) =
      (if (executeCommand env w cmd).2.isSome then
        ((executeCommand env w cmd).1, ReconcileResult.err, [(d.name, cmd)])
       else ((executeCommand env w cmd).1, ReconcileResult.requeue, [(d.name, cmd)])) := by
  unfold reconcileLoop
  rw [hg]
  simp [hce, hc, h1, h2]

theorem reconcileLoop_le_one : ∀ (ds : List Deprovisioner) (env : Env) (w : World),
    ((reconcileLoop env w ds).2.2).length ≤ 1 := by
  intro ds
  induction ds with
  | nil => intro env w; simp [reconcileLoop]
  | cons d rest ih =>
    intro env w
    rcases hg : d.candidatesResult with e | cs
    · rw [reconcileLoop_cons_err env w d rest e hg]
      simp
    · rcases hce : cs.isEmpty with hf | ht
      · rcases hc : d.computeResult with e2 | cmd
        · rw [reconcileLoop_cons_compute_err env w d rest cs e2 hg hce hc]
          simp
        · by_cases h1 : cmd.action = CommandAction.actionDoNothing
          · rw [reconcileLoop_cons_doNothing env w d rest cs cmd hg hce hc h1]
            exact ih env w
          · by_cases h2 : cmd.action = CommandAction.actionRetry
            · rw [reconcileLoop_cons_retry env w d rest cs cmd hg hce hc h2]
              simp
            · rw [reconcileLoop_cons_exec env w d rest cs cmd hg hce hc h1 h2]
              by_cases hrs : (executeCommand env w cmd).2.isSome <;> simp [hrs]
      · rw [reconcileLoop_cons_empty env w d rest cs hg hce]
        exact ih env w

theorem skipsTurn_of_empty (d : Deprovisioner) (cs : List Nat)
    (hg : d.candidatesResult = Except.ok cs) (hce : cs.isEmpty = true) :
    skipsTurn d = true := by
  unfold skipsTurn
  rw [hg]
  simp [hce]

theorem skipsTurn_of_doNothing (d : Deprovisioner) (cs : List Nat) (cmd : Command)
    (hg : d.candidatesResult = Except.ok cs) (hc : d.computeResult = Except.ok cmd)
    (h1 : cmd.action = CommandAction.actionDoNothing) :
    skipsTurn d = true := by
  unfold skipsTurn
  rw [hg, hc]
  simp [h1]

theorem reconcileLoop_all_skip : ∀ (ds : List Deprovisioner) (env : Env) (w : World),
    (∀ d ∈ ds, skipsTurn d = true) →
    reconcileLoop env w ds =
      ({ w with consolidated := true }, ReconcileResult.requeueAfter pollingPeriod, []) := by
  intro ds
  induction ds with
  | nil => intro env w _; rfl
  | cons d rest ih =>
    intro env w hall
    have hd := hall d (List.mem_cons_self d rest)
    have hrest := fun d2 h2 => hall d2 (List.mem_cons_of_mem d h2)
    unfold skipsTurn at hd
    rcases hg : d.candidatesResult with e | cs <;> rw [hg] at hd
    · simp at hd
    · rcases hce : cs.isEmpty with hf | ht
      · simp only [hce, Bool.false_or] at hd
        rcases hc : d.computeResult with e2 | cmd <;> rw [hc] at hd
        · simp at hd
        · have h1 : cmd.action = CommandAction.actionDoNothing := by simpa using hd
          rw [reconcileLoop_cons_doNothing env w d rest cs cmd hg hce hc h1]
          exact ih env w hrest
      · rw [reconcileLoop_cons_empty env w d rest cs hg hce]
        exact ih env w hrest

theorem reconcileLoop_executed :
    ∀ (ds : List Deprovisioner) (env : Env) (w : World) (nm : String) (cmd : Command),
    (reconcileLoop env w ds).2.2 = [(nm, cmd)] →
    ∃ pre d post, ds = pre ++ d :: post ∧
      (∀ d2 ∈ pre, skipsTurn d2 = true) ∧
      d.name = nm ∧ d.computeResult = Except.ok cmd ∧
      cmd.action ≠ CommandAction.actionDoNothing ∧
      cmd.action ≠ CommandAction.actionRetry ∧
      (∃ cs, d.candidatesResult = Except.ok cs ∧ cs ≠ []) ∧
      ((reconcileLoop env w ds).2.1 = ReconcileResult.requeue ∨
        (reconcileLoop env w ds).2.1 = ReconcileResult.err) := by
  intro ds
  induction ds with
  | nil => intro env w nm cmd h; simp [reconcileLoop] at h
  | cons d rest ih =>
    intro env w nm cmd h
    rcases hg : d.candidatesResult with e | cs
    · rw [reconcileLoop_cons_err env w d rest e hg] at h
      simp at h
    · rcases hce : cs.isEmpty with hf | ht
      · rcases hc : d.computeResult with e2 | cmd2
        · rw [reconcileLoop_cons_compute_err env w d rest cs e2 hg hce hc] at h
          simp at h
        · by_cases h1 : cmd2.action = CommandAction.actionDoNothing
          · have heq := reconcileLoop_cons_doNothing env w d rest cs cmd2 hg hce hc h1
            rw [heq] at h
            obtain ⟨pre, d2, post, hsplit, hpre, hrest⟩ := ih env w nm cmd h
            refine ⟨d :: pre, d2, post, by simp [hsplit], ?_, ?_⟩
            · intro d3 h3
              rcases List.mem_cons.1 h3 with h4 | h4
              · rw [h4]
                exact skipsTurn_of_doNothing d cs cmd2 hg hc h1
              · exact hpre d3 h4
            · rw [heq]
              exact hrest
          · by_cases h2 : cmd2.action = CommandAction.actionRetry
            · rw [reconcileLoop_cons_retry env w d rest cs cmd2 hg hce hc h2] at h
              simp at h
            · have heq := reconcileLoop_cons_exec env w d rest cs cmd2 hg hce hc h1 h2
              rw [heq] at h
              have hne : cs ≠ [] := by
                intro hnil
                rw [hnil] at hce
                simp at hce
              by_cases hrs : (executeCommand env w cmd2).2.isSome
              · rw [if_pos hrs] at h
                simp only [List.cons.injEq, Prod.mk.injEq] at h
                obtain ⟨⟨hnm, hcmd⟩, -⟩ := h
                subst hcmd
                refine ⟨[], d, rest, rfl, by simp, hnm, hc, h1, h2, ⟨cs, hg, hne⟩, ?_⟩
                rw [heq, if_pos hrs]
                exact Or.inr rfl
              · rw [if_neg hrs] at h
                simp only [List.cons.injEq, Prod.mk.injEq] at h
                obtain ⟨⟨hnm, hcmd⟩, -⟩ := h
                subst hcmd
                refine ⟨[], d, rest, rfl, by simp, hnm, hc, h1, h2, ⟨cs, hg, hne⟩, ?_⟩
                rw [heq, if_neg hrs]
                exact Or.inl rfl
      · have heq := reconcileLoop_cons_empty env w d rest cs hg hce
        rw [heq] at h
        obtain ⟨pre, d2, post, hsplit, hpre, hrest⟩ := ih env w nm cmd h
        refine ⟨d :: pre, d2, post, by simp [hsplit], ?_, ?_⟩
        · intro d3 h3
          rcases List.mem_cons.1 h3 with h4 | h4
          · rw [h4]
            exact skipsTurn_of_empty d cs hg hce
          · exact hpre d3 h4
        · rw [heq]
          exact hrest

theorem reconcileLoop_first_actionable :
    ∀ (pre : List Deprovisioner) (env : Env) (w : World) (d : Deprovisioner)
      (post : List Deprovisioner) (cs : List Nat) (cmd : Command),
    (∀ d2 ∈ pre, skipsTurn d2 = true) →
    d.candidatesResult = Except.ok cs → cs ≠ [] →
    d.computeResult = Except.ok cmd →
    cmd.action ≠ CommandAction.actionDoNothing →
    cmd.action ≠ CommandAction.actionRetry →
    (reconcileLoop env w (pre ++ d :: post)).2.2 = [(d.name, cmd)] := by
  intro pre
  induction pre with
  | nil =>
    intro env w d post cs cmd _ hg hne hc h1 h2
    have hce : cs.isEmpty = false := by
      cases cs
      · exact absurd rfl hne
      · rfl
    rw [List.nil_append, reconcileLoop_cons_exec env w d post cs cmd hg hce hc h1 h2]
    by_cases hrs : (executeCommand env w cmd).2.isSome <;> simp [hrs]
  | cons p rest ih =>
    intro env w d post cs cmd hpre hg hne hc h1 h2
    have hp := hpre p (List.mem_cons_self p rest)
    have hrest := fun d2 h3 => hpre d2 (List.mem_cons_of_mem p h3)
    unfold skipsTurn at hp
    rcases hgp : p.candidatesResult with e | cs2 <;> rw [hgp] at hp
    · simp at hp
    · rcases hcep : cs2.isEmpty with hf | ht
      · simp only [hcep, Bool.false_or] at hp
        rcases hcp : p.computeResult with e2 | cmd2 <;> rw [hcp] at hp
        · simp at hp
        · have h1p : cmd2.action = CommandAction.actionDoNothing := by simpa using hp
          rw [List.cons_append,
            reconcileLoop_cons_doNothing env w p (rest ++ d :: post) cs2 cmd2 hgp hcep hcp h1p]
          exact ih env w d post cs cmd hrest hg hne hc h1 h2
      · rw [List.cons_append,
          reconcileLoop_cons_empty env w p (rest ++ d :: post) cs2 hgp hcep]
        exact ih env w d post cs cmd hrest hg hne hc h1 h2

/-- C3: `NewController` installs the six deprovisioners in the fixed order
Expiration, Drift, Emptiness, EmptyNodeConsolidation, MultiNodeConsolidation,
SingleNodeConsolidation; a tick executes at most one strategy's command; the
executed strategy is preceded only by strategies that skipped (no candidates
or `doNothing`), its command is neither `doNothing` nor `retry`, and the tick
returns immediately after it; conversely the first actionable strategy after a
prefix of skips has its command executed. -/
theorem reconcile_fixed_order_single_execution :
    newControllerDeprovisionerNames =
      ["Expiration", "Drift", "Emptiness", "EmptyNodeConsolidation",
       "MultiNodeConsolidation", "SingleNodeConsolidation"] ∧
    (∀ (env : Env) (w : World) (bs : List (Except Unit (List Nat) × Except Unit Command)),
      ((reconcileLoop env w (newControllerDeprovisioners bs)).2.2).length ≤ 1) ∧
    (∀ (env : Env) (w : World) (bs : List (Except Unit (List Nat) × Except Unit Command))
      (nm : String) (cmd : Command),
      (reconcileLoop env w (newControllerDeprovisioners bs)).2.2 = [(nm, cmd)] →
      ∃ pre d post, newControllerDeprovisioners bs = pre ++ d :: post ∧
        (∀ d2 ∈ pre, skipsTurn d2 = true) ∧
        d.name = nm ∧ d.computeResult = Except.ok cmd ∧
        cmd.action ≠ CommandAction.actionDoNothing ∧
        cmd.action ≠ CommandAction.actionRetry ∧
        ((reconcileLoop env w (newControllerDeprovisioners bs)).2.1 = ReconcileResult.requeue ∨
          (reconcileLoop env w (newControllerDeprovisioners bs)).2.1 = ReconcileResult.err)) ∧
    (∀ (env : Env) (w : World) (pre : List Deprovisioner) (d : Deprovisioner)
      (post : List Deprovisioner) (cs : List Nat) (cmd : Command),
      (∀ d2 ∈ pre, skipsTurn d2 = true) →
      d.candidatesResult = Except.ok cs → cs ≠ [] →
      d.computeResult = Except.ok cmd →
      cmd.action ≠ CommandAction.actionDoNothing →
      cmd.action ≠ CommandAction.actionRetry →
      (reconcileLoop env w (pre ++ d :: post)).2.2 = [(d.name, cmd)]) := by
  refine ⟨rfl, ?_, ?_, ?_⟩
  · intro env w bs
    exact reconcileLoop_le_one _ env w
  · intro env w bs nm cmd h
    obtain ⟨pre, d, post, hsplit, hpre, hnm, hc, h1, h2, -, hres⟩ :=
      reconcileLoop_executed _ env w nm cmd h
    exact ⟨pre, d, post, hsplit, hpre, hnm, hc, h1, h2, hres⟩
  · intro env w pre d post cs cmd hpre hg hne hc h1 h2
    exact reconcileLoop_first_actionable pre env w d post cs cmd hpre hg hne hc h1 h2

theorem reconcile_fixed_order_single_execution_witness :
    ∃ pre d post, newControllerDeprovisioners bsC3 = pre ++ d :: post ∧
      (∀ d2 ∈ pre, skipsTurn d2 = true) ∧
      d.name = "Drift" ∧ d.computeResult = Except.ok cmdC3 ∧
      cmdC3.action ≠ CommandAction.actionDoNothing ∧
      cmdC3.action ≠ CommandAction.actionRetry ∧
      ((reconcileLoop envC3 worldC3 (newControllerDeprovisioners bsC3)).2.1 =
          ReconcileResult.requeue ∨
        (reconcileLoop envC3 worldC3 (newControllerDeprovisioners bsC3)).2.1 =
          ReconcileResult.err) :=
  reconcile_fixed_order_single_execution.2.2.1 envC3 worldC3 bsC3 "Drift" cmdC3 (by decide)

/-- C7: if every deprovisioner of the tick skips (no candidates or
`doNothing`, no retry and no error), the sweep marks the cluster consolidated
and requeues after `pollingPeriod` (10 seconds), executing nothing. -/
theorem idle_sweep_sets_consolidated_and_polls
    (env : Env) (w : World) (ds : List Deprovisioner)
    (h : ∀ d ∈ ds, skipsTurn d = true) :
    reconcileLoop env w ds =
      ({ w with consolidated := true }, ReconcileResult.requeueAfter pollingPeriod, []) ∧
    pollingPeriod = 10 :=
  ⟨reconcileLoop_all_skip ds env w h, rfl⟩

theorem idle_sweep_sets_consolidated_and_polls_witness :
    reconcileLoop envC7 worldC7 (newControllerDeprovisioners bsC7) =
      ({ worldC7 with consolidated := true }, ReconcileResult.requeueAfter pollingPeriod, []) ∧
    pollingPeriod = 10 :=
  idle_sweep_sets_consolidated_and_polls envC7 worldC7 _ (by decide)

theorem sncLoop_retry_of_flag : ∀ (cs : List Nat) (deps : SNCDeps),
    (∀ n ∈ cs, ∀ cmd, deps.computeConsolidation n = Except.ok cmd → actionableCmd cmd →
      deps.isValid cmd ≠ Except.ok true) →
    sncLoop deps cs true = retryCommand := by
  intro cs
  induction cs with
  | nil => intro deps _; rfl
  | cons n rest ih =>
    intro deps hnone
    have hrest := fun n2 h2 => hnone n2 (List.mem_cons_of_mem n h2)
    unfold sncLoop
    rcases hcc : deps.computeConsolidation n with e | cmd
    · exact ih deps hrest
    · by_cases hact : cmd.action = CommandAction.actionDoNothing ∨
          cmd.action = CommandAction.actionRetry
      · simp only [hact, if_true]
        exact ih deps hrest
      · simp only [hact, if_false]
        rcases hv : deps.isValid cmd with e2 | b
        · exact ih deps hrest
        · cases b
          · exact ih deps hrest
          · exact absurd hv (hnone n (List.mem_cons_self n rest) cmd hcc hact)

theorem sncLoop_retry_of_fail : ∀ (cs : List Nat) (deps : SNCDeps),
    (∀ n ∈ cs, ∀ cmd, deps.computeConsolidation n = Except.ok cmd → actionableCmd cmd →
      deps.isValid cmd ≠ Except.ok true) →
    (∃ n ∈ cs, ∃ cmd, deps.computeConsolidation n = Except.ok cmd ∧ actionableCmd cmd ∧
      deps.isValid cmd = Except.ok false) →
    sncLoop deps cs false = retryCommand := by
  intro cs
  induction cs with
  | nil => intro deps _ hfail; simp at hfail
  | cons n rest ih =>
    intro deps hnone hfail
    have hrest := fun n2 h2 => hnone n2 (List.mem_cons_of_mem n h2)
    unfold sncLoop
    rcases hcc : deps.computeConsolidation n with e | cmd
    · -- compute failed for the head: the failing witness must be in the tail
      apply ih deps hrest
      obtain ⟨n2, hn2, cmd2, hc2, ha2, hv2⟩ := hfail
      rcases List.mem_cons.1 hn2 with h4 | h4
      · subst h4
        rw [hcc] at hc2
        cases hc2
      · exact ⟨n2, h4, cmd2, hc2, ha2, hv2⟩
    · by_cases hact : cmd.action = CommandAction.actionDoNothing ∨
          cmd.action = CommandAction.actionRetry
      · simp only [hact, if_true]
        apply ih deps hrest
        obtain ⟨n2, hn2, cmd2, hc2, ha2, hv2⟩ := hfail
        rcases List.mem_cons.1 hn2 with h4 | h4
        · subst h4
          rw [hcc] at hc2
          cases hc2
          exact absurd hact ha2
        · exact ⟨n2, h4, cmd2, hc2, ha2, hv2⟩
      · simp only [hact, if_false]
        rcases hv : deps.isValid cmd with e2 | b
        · -- validation errored for the head: the failing witness is in the tail
          apply ih deps hrest
          obtain ⟨n2, hn2, cmd2, hc2, ha2, hv2⟩ := hfail
          rcases List.mem_cons.1 hn2 with h4 | h4
          · subst h4
            rw [hcc] at hc2
            cases hc2
            rw [hv] at hv2
            cases hv2
          · exact ⟨n2, h4, cmd2, hc2, ha2, hv2⟩
        · cases b
          · exact sncLoop_retry_of_flag rest deps hrest
          · exact absurd hv (hnone n (List.mem_cons_self n rest) cmd hcc hact)

/-- C4 (amended): if some candidate's computed command fails validation and no
candidate yields a validated actionable command, `ComputeCommand` returns the
retry command; the outer `Reconcile` loop, seeing a retry command from a
strategy with candidates, requeues immediately and executes nothing. -/
theorem single_node_retry_amended
    (deps : SNCDeps) (cs : List Nat)
    (hcons : deps.consolidated = false)
    (hsort : deps.sortAndFilterCandidates = Except.ok cs)
    (hfail : ∃ n ∈ cs, ∃ cmd, deps.computeConsolidation n = Except.ok cmd ∧
      actionableCmd cmd ∧ deps.isValid cmd = Except.ok false)
    (hnone : ∀ n ∈ cs, ∀ cmd, deps.computeConsolidation n = Except.ok cmd → actionableCmd cmd →
      deps.isValid cmd ≠ Except.ok true) :
    singleNodeComputeCommand deps = Except.ok retryCommand ∧
    (∀ (env : Env) (w : World) (dname : String) (cands : List Nat)
      (rest : List Deprovisioner), cands.isEmpty = false →
      reconcileLoop env w
        ({ name := dname, candidatesResult := Except.ok cands,
           computeResult := Except.ok retryCommand } :: rest) =
        (w, ReconcileResult.requeue, [])) := by
  constructor
  · unfold singleNodeComputeCommand
    rw [hcons, hsort]
    simp only [Bool.false_eq_true, if_false]
    rw [sncLoop_retry_of_fail cs deps hnone hfail]
  · intro env w dname cands rest hne
    exact reconcileLoop_cons_retry env w _ rest cands retryCommand rfl hne rfl rfl

theorem single_node_retry_counterexample :
    depsC4.sortAndFilterCandidates = Except.ok [1, 2] ∧
    (1 : Nat) ∈ [1, 2] ∧
    depsC4.computeConsolidation 1 = Except.ok cmdR1 ∧
    cmdR1.action = CommandAction.actionReplace ∧
    depsC4.isValid cmdR1 = Except.ok false ∧
    singleNodeComputeCommand depsC4 = Except.ok cmdD2 ∧
    cmdD2.action = CommandAction.actionDelete := by
  refine ⟨rfl, by decide, rfl, rfl, rfl, rfl, rfl⟩

theorem single_node_retry_amended_witness :
    singleNodeComputeCommand depsW4 = Except.ok retryCommand ∧
    reconcileLoop envW4 worldW4
      ({ name := "SingleNodeConsolidation", candidatesResult := Except.ok [7],
         computeResult := Except.ok retryCommand } :: []) =
      (worldW4, ReconcileResult.requeue, []) := by
  have h := single_node_retry_amended depsW4 [7] rfl rfl
    (by
      refine ⟨7, ?_, cmdW4, rfl, ?_, rfl⟩
      · simp
      · rintro (h | h) <;> cases h)
    (by
      intro n hn cmd hcmd hact
      have h2 : (Except.ok cmdW4 : Except Unit Command) = Except.ok cmd := hcmd
      cases h2
      intro hcontra
      cases hcontra)
  exact ⟨h.1, h.2 envW4 worldW4 "SingleNodeConsolidation" [7] [] rfl⟩

/-- C10: the liveness reconciler deletes a machine iff the TTL is set, the
machine is unregistered, its creation timestamp is non-zero and expired;
otherwise it does not delete, requeueing after the TTL when the machine is
unregistered and returning an empty result when the TTL is unset or the
machine is registered. -/
theorem liveness_delete_iff_ttl_expired
    (settings : MachineSettings) (now : Nat) (machine : Machine) :
    ((livenessReconcile settings now machine).2 = true ↔
      ∃ ttl, settings.ttlAfterNotRegistered = some ttl ∧ machine.registered = false ∧
        machine.creationTimestamp ≠ 0 ∧ machine.creationTimestamp + ttl < now) ∧
    ((livenessReconcile settings now machine).2 = true →
      (livenessReconcile settings now machine).1 = LivenessResult.empty) ∧
    (∀ ttl, settings.ttlAfterNotRegistered = some ttl → machine.registered = false →
      ¬(machine.creationTimestamp ≠ 0 ∧ machine.creationTimestamp + ttl < now) →
      livenessReconcile settings now machine = (LivenessResult.requeueAfter ttl, false)) ∧
    (settings.ttlAfterNotRegistered = none →
      livenessReconcile settings now machine = (LivenessResult.empty, false)) ∧
    (machine.registered = true →
      livenessReconcile settings now machine = (LivenessResult.empty, false)) := by
  rcases hset : settings.ttlAfterNotRegistered with _ | ttl
  · have heq : livenessReconcile settings now machine = (LivenessResult.empty, false) := by
      unfold livenessReconcile
      rw [hset]
    refine ⟨?_, ?_, ?_, fun _ => heq, fun _ => heq⟩
    · rw [heq]
      constructor
      · intro h
        exact Bool.noConfusion h
      · rintro ⟨t2, h2, -⟩
        exact Option.noConfusion h2
    · intro h
      rw [heq] at h
      exact Bool.noConfusion h
    · intro t2 h2
      exact Option.noConfusion h2
  · rcases hreg : machine.registered with hf | ht
    · by_cases hdue : machine.creationTimestamp ≠ 0 ∧ machine.creationTimestamp + ttl < now
      · have heq : livenessReconcile settings now machine = (LivenessResult.empty, true) := by
          unfold livenessReconcile
          rw [hset, hreg]
          simp [hdue]
        refine ⟨?_, fun _ => by rw [heq], ?_, ?_, ?_⟩
        · rw [heq]
          constructor
          · intro _
            exact ⟨ttl, rfl, rfl, hdue⟩
          · intro _
            rfl
        · intro t2 h2 _ hnot
          injection h2 with h3
          rw [← h3] at hnot
          exact absurd hdue hnot
        · intro h2
          exact Option.noConfusion h2
        · intro h2
          exact Bool.noConfusion h2
      · have heq : livenessReconcile settings now machine =
            (LivenessResult.requeueAfter ttl, false) := by
          unfold livenessReconcile
          rw [hset, hreg]
          simp [hdue]
        refine ⟨?_, ?_, ?_, ?_, ?_⟩
        · rw [heq]
          constructor
          · intro h
            exact Bool.noConfusion h
          · rintro ⟨t2, h2, -, hd⟩
            injection h2 with h3
            rw [← h3] at hd
            exact absurd hd hdue
        · intro h
          rw [heq] at h
          exact Bool.noConfusion h
        · intro t2 h2 _ _
          injection h2 with h3
          rw [heq, h3]
        · intro h2
          exact Option.noConfusion h2
        · intro h2
          exact Bool.noConfusion h2
    · have heq : livenessReconcile settings now machine = (LivenessResult.empty, false) := by
        unfold livenessReconcile
        rw [hset, hreg]
        simp
      refine ⟨?_, ?_, ?_, ?_, fun _ => heq⟩
      · rw [heq]
        constructor
        · intro h
          exact Bool.noConfusion h
        · rintro ⟨t2, -, h3, -⟩
          exact Bool.noConfusion h3
      · intro h
        rw [heq] at h
        exact Bool.noConfusion h
      · intro t2 _ h3
        exact Bool.noConfusion h3
      · intro h2
        exact Option.noConfusion h2

theorem liveness_delete_iff_ttl_expired_witness :
    livenessReconcile settingsW10 102 machineW10 = (LivenessResult.requeueAfter 5, false) :=
  (liveness_delete_iff_ttl_expired settingsW10 102 machineW10).2.2.1 5 rfl rfl (by decide)

theorem countReason_append_one (l : List Event) (ev : Event) (r : String) :
    countReason (l ++ [ev]) r =
      countReason l r + (if ev.reason = r then 1 else 0) := by
  simp [countReason, List.countP_append, List.countP_cons]

theorem publishEvent_zero_invariant (st : RecorderState) (ev : Event)
    (h : emitCount st "NominatePod" + nominateTokens st ≤ 10) :
    emitCount (publishEvent st 0 ev) "NominatePod" +
      nominateTokens (publishEvent st 0 ev) ≤ 10 := by
  unfold publishEvent
  by_cases hdup : dedupeHit st 0 ev = true
  · rw [if_pos hdup]
    exact h
  · rw [if_neg hdup]
    by_cases hr : ev.reason = "NominatePod"
    · rw [show rateLimitFor ev.reason = some (5, 10) by
        unfold rateLimitFor
        rw [if_pos hr]]
      simp only []
      have hprev : ((bucketFor st ev.reason).getD (10, 0)).1 = nominateTokens st := by
        rw [hr]
        rfl
      have hrefill : min 10 (((bucketFor st ev.reason).getD (10, 0)).1 +
          5 * (0 - ((bucketFor st ev.reason).getD (10, 0)).2)) ≤ nominateTokens st := by
        rw [Nat.zero_sub, Nat.mul_zero, Nat.add_zero, hprev]
        exact Nat.min_le_right _ _
      by_cases hacc : 1 ≤ min 10 (((bucketFor st ev.reason).getD (10, 0)).1 +
          5 * (0 - ((bucketFor st ev.reason).getD (10, 0)).2))
      · rw [if_pos hacc]
        have hcount : emitCount
            { st with
              dedupeSeen := (ev.reason, ev.involvedUID, 0) :: st.dedupeSeen,
              buckets := (ev.reason, min 10 (((bucketFor st ev.reason).getD (10, 0)).1 +
                5 * (0 - ((bucketFor st ev.reason).getD (10, 0)).2)) - 1, 0) ::
                st.buckets.filter (fun b => !(decide (b.1 = ev.reason))),
              emitted := st.emitted ++ [ev] } "NominatePod" =
            emitCount st "NominatePod" + 1 := by
          show countReason (st.emitted ++ [ev]) "NominatePod" = _
          rw [countReason_append_one, if_pos hr]
          rfl
        have htok : nominateTokens
            { st with
              dedupeSeen := (ev.reason, ev.involvedUID, 0) :: st.dedupeSeen,
              buckets := (ev.reason, min 10 (((bucketFor st ev.reason).getD (10, 0)).1 +
                5 * (0 - ((bucketFor st ev.reason).getD (10, 0)).2)) - 1, 0) ::
                st.buckets.filter (fun b => !(decide (b.1 = ev.reason))),
              emitted := st.emitted ++ [ev] } =
            min 10 (((bucketFor st ev.reason).getD (10, 0)).1 +
              5 * (0 - ((bucketFor st ev.reason).getD (10, 0)).2)) - 1 := by
          unfold nominateTokens bucketFor
          show ((Option.map _ (List.find? _ (_ :: _))).getD (10, 0)).1 = _
          rw [List.find?_cons_of_pos _ (by simpa using hr)]
          rfl
        rw [hcount, htok]
        omega
      · rw [if_neg hacc]
        have hcount : emitCount
            { st with
              dedupeSeen := (ev.reason, ev.involvedUID, 0) :: st.dedupeSeen,
              buckets := (ev.reason, min 10 (((bucketFor st ev.reason).getD (10, 0)).1 +
                5 * (0 - ((bucketFor st ev.reason).getD (10, 0)).2)), 0) ::
                st.buckets.filter (fun b => !(decide (b.1 = ev.reason))) } "NominatePod" =
            emitCount st "NominatePod" := rfl
        have htok : nominateTokens
            { st with
              dedupeSeen := (ev.reason, ev.involvedUID, 0) :: st.dedupeSeen,
              buckets := (ev.reason, min 10 (((bucketFor st ev.reason).getD (10, 0)).1 +
                5 * (0 - ((bucketFor st ev.reason).getD (10, 0)).2)), 0) ::
                st.buckets.filter (fun b => !(decide (b.1 = ev.reason))) } =
            min 10 (((bucketFor st ev.reason).getD (10, 0)).1 +
              5 * (0 - ((bucketFor st ev.reason).getD (10, 0)).2)) := by
          unfold nominateTokens bucketFor
          show ((Option.map _ (List.find? _ (_ :: _))).getD (10, 0)).1 = _
          rw [List.find?_cons_of_pos _ (by simpa using hr)]
          rfl
        rw [hcount, htok]
        omega
    · rw [show rateLimitFor ev.reason = none by
        unfold rateLimitFor
        rw [if_neg hr]]
      simp only []
      have hcount : countReason (st.emitted ++ [ev]) "NominatePod" =
          emitCount st "NominatePod" := by
        rw [countReason_append_one, if_neg hr]
        rfl
      show countReason (st.emitted ++ [ev]) "NominatePod" + nominateTokens _ ≤ 10
      rw [hcount]
      exact h

theorem publishAll_zero_nominate_le : ∀ (l : List (Nat × Event)) (st : RecorderState),
    (∀ x ∈ l, x.1 = 0) → emitCount st "NominatePod" + nominateTokens st ≤ 10 →
    emitCount (publishAll st l) "NominatePod" ≤ 10 := by
  intro l
  induction l with
  | nil =>
    intro st _ h
    exact le_trans (Nat.le_add_right _ _) h
  | cons x rest ih =>
    intro st hall h
    have hx : x.1 = 0 := hall x (List.mem_cons_self x rest)
    show emitCount (publishAll (publishEvent st x.1 x.2) rest) "NominatePod" ≤ 10
    rw [hx]
    exact ih (publishEvent st 0 x.2) (fun y hy => hall y (List.mem_cons_of_mem x hy))
      (publishEvent_zero_invariant st x.2 h)

set_option maxRecDepth 100000 in
/-- C8: the recorder emits at most `burst` per reason per second plus
smoothed refill — 100 same-second `NominatePod` publishes yield exactly 10
downstream and any same-second publish sequence yields at most 10, while 3×5
publishes a second apart yield 15; duplicates of one (reason, UID) coalesce
to a single emission and events for distinct entities all pass. -/
theorem recorder_rate_limit_and_dedupe :
    emitCount (publishAll initRecorder nominateBurstScenario) "NominatePod" = 10 ∧
    (∀ l : List (Nat × Event), (∀ x ∈ l, x.1 = 0) →
      emitCount (publishAll initRecorder l) "NominatePod" ≤ 10) ∧
    emitCount (publishAll initRecorder nominateSmoothScenario) "NominatePod" = 15 ∧
    emitCount (publishAll initRecorder evictDupScenario) "EvictPod" = 1 ∧
    emitCount (publishAll initRecorder evictDistinctScenario) "EvictPod" = 100 := by
  refine ⟨by decide, ?_, by decide, by decide, by decide⟩
  intro l hl
  exact publishAll_zero_nominate_le l initRecorder hl (by decide)

theorem recorder_rate_limit_and_dedupe_witness :
    emitCount (publishAll initRecorder scenarioW8) "NominatePod" ≤ 10 :=
  recorder_rate_limit_and_dedupe.2.1 scenarioW8 (by
    intro x hx
    unfold scenarioW8 at hx
    obtain ⟨i, -, hx2⟩ := List.mem_map.1 hx
    rw [← hx2])

end KC
